import Mathlib

/-!
Verification development for the `openapi-auditor` repository
(`src/auditor/checks.py`).

The checks operate on the decoded form of a JSON/YAML document.  We embed
that document tree as the inductive type `JVal` below (mappings are
association lists in insertion order, mirroring Python `dict` iteration
order; decoded documents have pairwise-distinct keys).  Each check from
`checks.py` is translated into a Lean function.  Where the Python source
can raise an exception on a malformed tree (for example calling
`.items()` on a value that is not a mapping, or iterating a value that is
not iterable), the embedded function returns `Except String _`, with
`.error` marking the raise; everywhere else the translation is pure.
-/

namespace Auditor

/-- Decoded JSON/YAML value: mappings (insertion-ordered association
lists), sequences, strings, integers, booleans, null. -/
inductive JVal where
  | null : JVal
  | bool (b : Bool) : JVal
  | num (n : Int) : JVal
  | str (s : String) : JVal
  | arr (l : List JVal) : JVal
  | obj (l : List (String × JVal)) : JVal

/-- Python truthiness of a decoded value (`bool(x)`). -/
def JVal.truthy : JVal → Bool
  | .null => false
  | .bool b => b
  | .num n => n != 0
  | .str s => s != ""
  | .arr l => !l.isEmpty
  | .obj l => !l.isEmpty

/-- Is the value a mapping (`isinstance(x, dict)`)? -/
def JVal.isObj : JVal → Bool
  | .obj _ => true
  | _ => false

/-- Is the value a sequence (`isinstance(x, list)`)? -/
def JVal.isArr : JVal → Bool
  | .arr _ => true
  | _ => false

/-- First-match association lookup; decoded documents have distinct keys,
so this is Python `d[k]` / `d.get(k)` on a decoded mapping. -/
def jget (l : List (String × JVal)) (k : String) : Option JVal :=
  (l.find? (fun kv => kv.1 = k)).map (fun kv => kv.2)

/-- `d.get(k)` on a value known to be a mapping; `none` when absent. -/
def JVal.get? : JVal → String → Option JVal
  | .obj l, k => jget l k
  | _, _ => none

/-- Python `d[k] = v` on an insertion-ordered mapping: an existing key
keeps its position and gets the new value, a fresh key is appended. -/
def dictInsert (l : List (String × JVal)) (k : String) (v : JVal) :
    List (String × JVal) :=
  if (l.find? (fun kv => kv.1 = k)).isSome then
    l.map (fun kv => if kv.1 = k then (k, v) else kv)
  else l ++ [(k, v)]

/-- Python `{**a, **b}`: start from `a`, then insert every pair of `b`
in order (later assignment wins, first-insertion position kept). -/
def dictUpdate (a b : List (String × JVal)) : List (String × JVal) :=
  b.foldl (fun d kv => dictInsert d kv.1 kv.2) a

/-- Models the pervasive `d.get(k, {}) or {}` idiom on a mapping `d`:
an absent or falsy value becomes the empty mapping. -/
def getOrEmptyObj (l : List (String × JVal)) (k : String) : JVal :=
  let v := (jget l k).getD JVal.null
  if v.truthy then v else JVal.obj []

/-- ASCII lower-casing (the source applies `str.lower()` to HTTP method
names and path segments, which are ASCII in any OpenAPI document). -/
def asciiLower (s : String) : String :=
  ⟨s.data.map (fun c =>
    if 'A' ≤ c ∧ c ≤ 'Z' then Char.ofNat (c.toNat + 32) else c)⟩

/-- ASCII upper-casing (`str.upper()` applied to lowered method names). -/
def asciiUpper (s : String) : String :=
  ⟨s.data.map (fun c =>
    if 'a' ≤ c ∧ c ≤ 'z' then Char.ofNat (c.toNat - 32) else c)⟩

/-- Python `d.items()`: succeeds on a mapping, raises `AttributeError`
on anything else. -/
def itemsE (j : JVal) : Except String (List (String × JVal)) :=
  match j with
  | .obj l => .ok l
  | _ => .error "AttributeError: object has no attribute 'items'"

/-- Python `d.values()`: succeeds on a mapping, raises otherwise. -/
def valuesE (j : JVal) : Except String (List JVal) :=
  match j with
  | .obj l => .ok (l.map (fun kv => kv.2))
  | _ => .error "AttributeError: object has no attribute 'values'"

/-- Python `d.get(k)` where `d` may not be a mapping: raises
`AttributeError` on non-mappings. -/
def objGetE (j : JVal) (k : String) : Except String (Option JVal) :=
  match j with
  | .obj l => .ok (jget l k)
  | _ => .error "AttributeError: object has no attribute 'get'"

/-- Python `for x in v` materialized: sequences yield their elements,
mappings their keys, strings their characters; iterating a number,
boolean or `None` raises `TypeError`. -/
def iterElemsE (j : JVal) : Except String (List JVal) :=
  match j with
  | .arr l => .ok l
  | .obj l => .ok (l.map (fun kv => JVal.str kv.1))
  | .str s => .ok (s.data.map (fun c => JVal.str (String.singleton c)))
  | _ => .error "TypeError: object is not iterable"

-- ---- naming style helpers (checks.py lines 9-19) ----

/-- `[a-z]`. -/
def isLowerAZ (c : Char) : Bool := 'a' ≤ c ∧ c ≤ 'z'

/-- `[A-Z]`. -/
def isUpperAZ (c : Char) : Bool := 'A' ≤ c ∧ c ≤ 'Z'

/-- `[0-9]`. -/
def isDigit09 (c : Char) : Bool := '0' ≤ c ∧ c ≤ '9'

/-- `[a-z0-9]`. -/
def isLowerDigit (c : Char) : Bool := isLowerAZ c || isDigit09 c

/-- States of the deterministic matcher for the regular expressions
`^[a-z]+(?:SEP[a-z0-9]+)*$` used by `detect_style`: inside the initial
lowercase run (accepting), right after a separator (needing at least one
`[a-z0-9]`), or inside a later segment (accepting).  The separator class
(`[A-Z]` for the camel pattern, `_` for the snake pattern) is disjoint
from `[a-z]` and `[a-z0-9]`, so the deterministic scan decides exactly
the regex language. -/
inductive StyleState where
  | first : StyleState
  | need : StyleState
  | seg : StyleState

/-- One-pass matcher for `^[a-z]+(?:SEP[a-z0-9]+)*$` after the first
character; `sep` is the separator class. -/
def styleStep (sep : Char → Bool) : StyleState → List Char → Bool
  | st, [] =>
    match st with
    | .need => false
    | _ => true
  | st, c :: rest =>
    match st with
    | .first =>
      if isLowerAZ c then styleStep sep .first rest
      else if sep c then styleStep sep .need rest
      else false
    | .need =>
      if isLowerDigit c then styleStep sep .seg rest
      else false
    | .seg =>
      if isLowerDigit c then styleStep sep .seg rest
      else if sep c then styleStep sep .need rest
      else false

/-- Full-string match of `^[a-z]+(?:SEP[a-z0-9]+)*$`. -/
def matchStyle (sep : Char → Bool) (s : String) : Bool :=
  match s.data with
  | [] => false
  | c :: rest => isLowerAZ c && styleStep sep .first rest

/-- `_CAMEL_RE.match(name)`: `^[a-z]+(?:[A-Z][a-z0-9]+)*$`. -/
def matchCamel (s : String) : Bool := matchStyle isUpperAZ s

/-- `_SNAKE_RE.match(name)`: `^[a-z]+(?:_[a-z0-9]+)*$`. -/
def matchSnake (s : String) : Bool := matchStyle (fun c => c = '_') s

/-- `detect_style` (checks.py lines 13-19): camel pattern first, then
snake, else `other`. -/
def detect_style (name : String) : String :=
  if matchCamel name then "camel"
  else if matchSnake name then "snake"
  else "other"

-- ---- PARAM_PATTERN and path helpers ----

/-- One-pass scan for `PARAM_PATTERN.findall`, the regex `\x7b([^\x7d/]+)\x7d`.
The first argument is `none` while scanning for `\x7b`, and `some acc`
(collected characters, reversed) while inside a candidate group.  A group
aborted by `/` or by the end of the string encloses no `\x7d` and no `/`,
so no successful match can start inside it and the scan may resume at the
aborting character; an empty group (`\x7b\x7d`) likewise fails and the scan
resumes after it, matching `re.findall`'s restart-at-next-position rule. -/
def findParamsAux : Option (List Char) → List Char → List String
  | none, [] => []
  | none, c :: rest =>
    if c = '{' then findParamsAux (some []) rest
    else findParamsAux none rest
  | some _, [] => []
  | some acc, c :: rest =>
    if c = '}' then
      if acc.isEmpty then findParamsAux none rest
      else (acc.reverse.asString) :: findParamsAux none rest
    else if c = '/' then findParamsAux none rest
    else findParamsAux (some (c :: acc)) rest

/-- `PARAM_PATTERN.findall(path)` (checks.py line 6). -/
def findParams (path : String) : List String := findParamsAux none path.data

/-- `_path_has_template` (checks.py lines 163-165):
`PARAM_PATTERN.search(path)` succeeds iff `findall` is non-empty. -/
def path_has_template (path : String) : Bool := !(findParams path).isEmpty

/-- Python `s.split(sep)` for a one-character separator. -/
def splitOnChar (sep : Char) : List Char → List (List Char)
  | [] => [[]]
  | c :: rest =>
    if c = sep then [] :: splitOnChar sep rest
    else
      match splitOnChar sep rest with
      | [] => [[c]]
      | h :: t => (c :: h) :: t

/-- `_last_segment` (checks.py lines 142-145): last non-empty piece of
`path.split("/")`, or `""`. -/
def last_segment (path : String) : String :=
  let segs := ((splitOnChar '/' path.data).map (fun l => l.asString)).filter
    (fun s => s ≠ "")
  (segs.getLast?).getD ""

/-- Python `\w` on ASCII input: letters, digits, underscore. -/
def isWordChar (c : Char) : Bool :=
  isLowerAZ c || isUpperAZ c || isDigit09 c || c = '_'

/-- Python `s.startswith(pre)`. -/
def pyStartsWith (pre s : String) : Bool := pre.data.isPrefixOf s.data

/-- `_VER_RE.search` (checks.py line 302), the regex `/v\d+(?:\b|/)`.
Since `/` is a non-word character, the alternation `(?:\b|/)` is a word
boundary after the greedy digit run: the character after the digits must
be absent or a non-word character.  The scan tries each position left to
right, exactly like `re.search`. -/
def verSearch : List Char → Bool
  | [] => false
  | c :: rest =>
    (if c = '/' then
      match rest with
      | 'v' :: rest2 =>
        let ds := rest2.takeWhile isDigit09
        let after := rest2.dropWhile isDigit09
        !ds.isEmpty && (match after with
          | [] => true
          | d :: _ => !isWordChar d)
      | _ => false
    else false) || verSearch rest

/-- `_VER_RE.search(url)` on a string. -/
def hasVersionSeg (s : String) : Bool := verSearch s.data

-- ---- document walker (checks.py lines 5, 21-33) ----

/-- `HTTP_METHODS` (checks.py line 5). -/
def HTTP_METHODS : List String :=
  ["get", "post", "put", "patch", "delete", "options", "head", "trace"]

/-- `VERB_TRIGGERS` (checks.py lines 137-140).  The source stores a set
and only ever asks `any(lower.startswith(v) for v in VERB_TRIGGERS)`,
which is independent of iteration order. -/
def VERB_TRIGGERS : List String :=
  ["create", "update", "delete", "remove", "add", "set", "get",
   "make", "do", "run", "execute", "generate"]

/-- `spec.get("paths", {}) or {}` followed by `.items()`: raises when
`spec` is not a mapping or when the `paths` value is truthy but not a
mapping; an absent or falsy `paths` value yields the empty item list. -/
def specPathsE (spec : JVal) : Except String (List (String × JVal)) :=
  match spec with
  | .obj l =>
    let v := (jget l "paths").getD JVal.null
    if v.truthy then
      match v with
      | .obj pl => .ok pl
      | _ => .error "AttributeError: object has no attribute 'items'"
    else .ok []
  | _ => .error "AttributeError: object has no attribute 'get'"

/-- `iter_operations` (checks.py lines 21-33), materialized: every
`(path, lowered method, operation)` where the path item is a mapping,
the lowered key is a recognized HTTP method and the value is a mapping. -/
def iter_operationsE (spec : JVal) :
    Except String (List (String × String × JVal)) := do
  let pl ← specPathsE spec
  pure (pl.flatMap (fun pi =>
    match pi.2 with
    | .obj ops =>
      ops.filterMap (fun mo =>
        if asciiLower mo.1 ∈ HTTP_METHODS ∧ mo.2.isObj then
          some (pi.1, asciiLower mo.1, mo.2)
        else none)
    | _ => []))

-- ---- check_unique_operation_ids (checks.py lines 35-63) ----

/-- Python `str()` rendering of the scalar operationId values that can
reach an f-string in `check_unique_operation_ids`.  Sequence and mapping
values are unhashable and raise before any rendering, so their clause is
never reached on the embedded runs. -/
def pyScalarStr : JVal → String
  | .str s => s
  | .num n => toString n
  | .bool true => "True"
  | .bool false => "False"
  | .null => "None"
  | _ => ""

/-- Unhashable values (`list`/`dict`): using one as a `dict` key raises
`TypeError`. -/
def unhashableJ : JVal → Bool
  | .arr _ => true
  | .obj _ => true
  | _ => false

/-- Equality of hashable (scalar) decoded values, as used for keys of the
`seen` dictionary.  (Python additionally identifies `True` with `1` across
types; no check in scope stores both, and the claims constrain ids to
strings, where the two notions agree.) -/
def scalarEq : JVal → JVal → Bool
  | .null, .null => true
  | .bool a, .bool b => a == b
  | .num a, .num b => a == b
  | .str a, .str b => a == b
  | _, _ => false

/-- Lookup in the `seen` dictionary `{operationId: (path, method)}`. -/
def seenLookup (seen : List (JVal × String × String)) (k : JVal) :
    Option (String × String) :=
  (seen.find? (fun e => scalarEq e.1 k)).map (fun e => e.2)

/-- Structured form of the diagnostics of `check_unique_operation_ids`:
a missing id, or a duplicate id at `(method, path)` first used at
`(prevMethod, prevPath)`. -/
inductive OpIdEvent where
  | missing (method path : String) : OpIdEvent
  | dup (id : JVal) (method path prevMethod prevPath : String) : OpIdEvent

/-- The f-strings of checks.py lines 49 and 55-58. -/
def renderOpIdEvent : OpIdEvent → String
  | .missing m p => "[" ++ asciiUpper m ++ " " ++ p ++ "] missing operationId"
  | .dup id m p pm pp =>
    "Duplicate operationId '" ++ pyScalarStr id ++ "' at " ++
      asciiUpper m ++ " " ++ p ++ " (already used at " ++
      asciiUpper pm ++ " " ++ pp ++ ")"

/-- The operationId of one operation triple, `op.get("operationId")`
with `None` for absent. -/
def oidOf (x : String × String × JVal) : JVal :=
  (x.2.2.get? "operationId").getD JVal.null

/-- The scan of `check_unique_operation_ids` over the operation list,
producing structured events; `seen` is the accumulator dictionary.  A
falsy id yields a `missing` event; a truthy unhashable id raises
(`op_id in seen` hashes the key); a truthy id already seen yields a
`dup` event naming the first occurrence; otherwise the id is recorded. -/
def opIdEvents : List (String × String × JVal) →
    List (JVal × String × String) → Except String (List OpIdEvent)
  | [], _ => .ok []
  | x :: rest, seen =>
    let oid := oidOf x
    if ¬ oid.truthy then do
      let evs ← opIdEvents rest seen
      pure (OpIdEvent.missing x.2.1 x.1 :: evs)
    else if unhashableJ oid then
      .error "TypeError: unhashable type"
    else
      match seenLookup seen oid with
      | some pr => do
        let evs ← opIdEvents rest seen
        pure (OpIdEvent.dup oid x.2.1 x.1 pr.2 pr.1 :: evs)
      | none => opIdEvents rest (seen ++ [(oid, x.1, x.2.1)])

/-- `check_unique_operation_ids` (checks.py lines 35-63). -/
def check_unique_operation_ids (spec : JVal) : Except String (List String) := do
  let ops ← iter_operationsE spec
  let evs ← opIdEvents ops []
  pure (evs.map renderOpIdEvent)

-- ---- check_path_params_defined (checks.py lines 65-135) ----

/-- `for p in x or []` over a parameters value: an absent or falsy value
iterates nothing; sequences, mappings (keys) and strings (characters)
iterate; numbers and booleans raise `TypeError`. -/
def paramListE (j : JVal) : Except String (List JVal) :=
  if ¬ j.truthy then .ok [] else iterElemsE j

/-- `p.get("in") == "path"` on a mapping value (Python equality between
a decoded value and the string literal). -/
def getInIsPath (meta : JVal) : Bool :=
  match meta.get? "in" with
  | some (.str s) => s == "path"
  | _ => false

/-- `p.get("required") is True`: identity with the boolean `True`, so
only the decoded boolean `true` passes. -/
def getRequiredIsTrue (meta : JVal) : Bool :=
  match meta.get? "required" with
  | some (.bool true) => true
  | _ => false

/-- The dictionary builders of checks.py lines 87-90 and 98-101: keep
parameters that are mappings with `in == "path"` and a string `name`,
keyed by name (later entries overwrite). -/
def collectPathParams (ps : List JVal) : List (String × JVal) :=
  ps.foldl (fun d p =>
    match p with
    | .obj pl =>
      if getInIsPath p then
        match jget pl "name" with
        | some (.str n) => dictInsert d n p
        | _ => d
      else d
    | _ => d) []

/-- checks.py lines 111-114. -/
def missingParamMsg (method path pname : String) : String :=
  "[" ++ asciiUpper method ++ " " ++ path ++ "] path parameter '\x7b" ++
    pname ++ "\x7d' missing from parameters (in: path)"

/-- checks.py lines 118-120. -/
def wrongInMsg (method path pname : String) : String :=
  "[" ++ asciiUpper method ++ " " ++ path ++ "] parameter '" ++ pname ++
    "' should have in: path"

/-- checks.py lines 122-124. -/
def mustRequiredMsg (method path pname : String) : String :=
  "[" ++ asciiUpper method ++ " " ++ path ++ "] parameter '" ++ pname ++
    "' must be required: true"

/-- checks.py lines 130-133. -/
def orphanParamMsg (method path pname : String) : String :=
  "[" ++ asciiUpper method ++ " " ++ path ++ "] parameter '" ++ pname ++
    "' declared in: path but not present in the URL template"

/-- The per-placeholder diagnostics of checks.py lines 108-124 for one
operation, given the merged visible parameter dictionary.  A name absent
from the dictionary yields the missing diagnostic and nothing else; a
present name is checked for `in == "path"` (by construction always true
for collected parameters) and for `required is True`. -/
def placeholderIssues (method path : String)
    (merged : List (String × JVal)) (expected : List String) : List String :=
  expected.flatMap (fun pn =>
    match jget merged pn with
    | none => [missingParamMsg method path pn]
    | some meta =>
      (if getInIsPath meta then [] else [wrongInMsg method path pn]) ++
      (if getRequiredIsTrue meta then [] else [mustRequiredMsg method path pn]))

/-- The orphan loop of checks.py lines 128-133: merged parameters whose
`in` is `"path"` but whose name is not a placeholder of the template. -/
def orphanIssues (method path : String)
    (merged : List (String × JVal)) (expected : List String) : List String :=
  merged.filterMap (fun kv =>
    if getInIsPath kv.2 ∧ kv.1 ∉ expected
    then some (orphanParamMsg method path kv.1)
    else none)

/-- `check_path_params_defined` (checks.py lines 65-135).  The source
iterates the placeholder set of each templated path; the placeholder
collection is modeled as the deduplicated match list (the source iterates
a Python `set`, whose order is unspecified; the claims under proof
concern single-placeholder templates, where the orders coincide). -/
def check_path_params_defined (spec : JVal) : Except String (List String) := do
  let pl ← specPathsE spec
  let ops ← iter_operationsE spec
  pl.foldlM (fun acc pi => do
    match pi.2 with
    | .obj il =>
      let expected := (findParams pi.1).dedup
      if expected.isEmpty then pure acc
      else do
        let pparams ← paramListE ((jget il "parameters").getD JVal.null)
        let declPath := collectPathParams pparams
        ops.foldlM (fun acc2 o => do
          if o.1 = pi.1 then do
            let oparams ← paramListE ((o.2.2.get? "parameters").getD JVal.null)
            let declOp := collectPathParams oparams
            let merged := dictUpdate declPath declOp
            pure (acc2 ++ placeholderIssues o.2.1 pi.1 merged expected ++
              orphanIssues o.2.1 pi.1 merged expected)
          else pure acc2) acc
    | _ => pure acc) []

-- ---- check_verbs_in_path (checks.py lines 147-161) ----

/-- checks.py line 160. -/
def verbMsg (path : String) : String :=
  "[PATH " ++ path ++ "] avoid verbs in URL; use resource nouns + HTTP methods"

/-- The per-path test of checks.py lines 156-159. -/
def verbTriggered (path : String) : Bool :=
  VERB_TRIGGERS.any (fun v => pyStartsWith v (asciiLower (last_segment path)))

/-- `check_verbs_in_path` (checks.py lines 147-161): one diagnostic per
key of `paths` whose last segment starts with a trigger verb. -/
def check_verbs_in_path (spec : JVal) : Except String (List String) := do
  let pl ← specPathsE spec
  pure (pl.filterMap (fun pi =>
    if verbTriggered pi.1 then some (verbMsg pi.1) else none))

-- ---- naming-style collectors (checks.py lines 186-299) ----

/-- `spec.get(k, {}) or {}` where `spec` itself may not be a mapping
(raises `AttributeError` on `.get` in that case). -/
def getFieldOrEmptyE (j : JVal) (k : String) : Except String JVal :=
  match j with
  | .obj l => .ok (getOrEmptyObj l k)
  | _ => .error "AttributeError: object has no attribute 'get'"

/-- Python `d.keys()`: succeeds on a mapping, raises otherwise. -/
def keysE (j : JVal) : Except String (List String) :=
  match j with
  | .obj l => .ok (l.map (fun kv => kv.1))
  | _ => .error "AttributeError: object has no attribute 'keys'"

/-- `d.get(k, {}) or {}` on a value known to be a mapping, as a value. -/
def JVal.getOrEmpty (j : JVal) (k : String) : JVal :=
  match j with
  | .obj l => getOrEmptyObj l k
  | _ => .obj []

/-- `_collect_json_property_names` (checks.py lines 186-224): property
names of every component schema, then property names of every
`application/json` response schema, in document order.  (The source
filters keys with `isinstance(prop_name, str)`; decoded-mapping keys are
always strings here.) -/
def collect_json_property_names (spec : JVal) : Except String (List String) := do
  let compsV ← getFieldOrEmptyE spec "components"
  let schemasV ← getFieldOrEmptyE compsV "schemas"
  let schemaVals ← valuesE schemasV
  let compNames ← schemaVals.foldlM (fun acc sch =>
    match sch with
    | .obj sl => do
      let ks ← keysE (getOrEmptyObj sl "properties")
      pure (acc ++ ks)
    | _ => pure acc) []
  let pl ← specPathsE spec
  pl.foldlM (fun acc pi =>
    match pi.2 with
    | .obj il =>
      il.foldlM (fun acc2 mo =>
        if asciiLower mo.1 ∈ HTTP_METHODS ∧ mo.2.isObj then do
          let rl ← itemsE (JVal.getOrEmpty mo.2 "responses")
          rl.foldlM (fun acc3 cr =>
            match cr.2 with
            | .obj rl2 => do
              let ajOpt ← objGetE (getOrEmptyObj rl2 "content") "application/json"
              match ajOpt with
              | some (.obj ajl) =>
                let schema := getOrEmptyObj ajl "schema"
                match schema with
                | .obj sl2 => do
                  let ks ← keysE (getOrEmptyObj sl2 "properties")
                  pure (acc3 ++ ks)
                | _ => pure acc3
              | _ => pure acc3
            | _ => pure acc3) acc2
        else pure acc2) acc
    | _ => pure acc) compNames

/-- checks.py lines 243-245 (the `used`-set test of line 242 is
equivalent to both counts being positive). -/
def jsonMixMsg (c s : Nat) : String :=
  "JSON keys mix styles: camelCase (" ++ toString c ++ ") and snake_case (" ++
    toString s ++ "). Choose one convention."

/-- checks.py lines 249-251. -/
def jsonOtherMsg (o : Nat) : String :=
  "JSON keys contain non-standard style (" ++ toString o ++
    " keys). Prefer camelCase or snake_case."

/-- `check_json_keys_style` (checks.py lines 226-253).  The source tallies
a three-entry counter dictionary indexed by `detect_style`; the three
counts are the three `countP` values. -/
def check_json_keys_style (spec : JVal) : Except String (List String) := do
  let names ← collect_json_property_names spec
  if names.isEmpty then pure []
  else
    let c := names.countP (fun n => detect_style n == "camel")
    let s := names.countP (fun n => detect_style n == "snake")
    let o := names.countP (fun n => detect_style n == "other")
    pure ((if 0 < c ∧ 0 < s then [jsonMixMsg c s] else []) ++
      (if 0 < o ∧ 0 < c + s then [jsonOtherMsg o] else []))

/-- `p.get("in") in {"path", "query"}`. -/
def getInIsPathOrQuery (meta : JVal) : Bool :=
  match meta.get? "in" with
  | some (.str s) => s == "path" || s == "query"
  | _ => false

/-- The name filter of checks.py lines 263-265 and 271-273. -/
def paramNamesOf (ps : List JVal) : List String :=
  ps.filterMap (fun p =>
    match p with
    | .obj pl =>
      if getInIsPathOrQuery p then
        match jget pl "name" with
        | some (.str n) => some n
        | _ => none
      else none
    | _ => none)

/-- `_collect_param_names` (checks.py lines 255-274): names of `path`
and `query` parameters, path level then operation level, document order. -/
def collect_param_names (spec : JVal) : Except String (List String) := do
  let pl ← specPathsE spec
  pl.foldlM (fun acc pi =>
    match pi.2 with
    | .obj il => do
      let pps ← paramListE ((jget il "parameters").getD JVal.null)
      let acc2 := acc ++ paramNamesOf pps
      il.foldlM (fun acc3 mo =>
        if asciiLower mo.1 ∈ HTTP_METHODS ∧ mo.2.isObj then do
          let ops2 ← paramListE ((mo.2.get? "parameters").getD JVal.null)
          pure (acc3 ++ paramNamesOf ops2)
        else pure acc3) acc2
    | _ => pure acc) []

/-- checks.py lines 290-293. -/
def paramMixMsg (c s : Nat) : String :=
  "Parameter names mix styles: camelCase (" ++ toString c ++
    ") and snake_case (" ++ toString s ++ "). Use one convention across API."

/-- checks.py lines 295-297. -/
def paramOtherMsg (o : Nat) : String :=
  "Parameter names contain non-standard style (" ++ toString o ++
    " params). Prefer camelCase or snake_case."

/-- `check_param_names_style` (checks.py lines 276-299). -/
def check_param_names_style (spec : JVal) : Except String (List String) := do
  let names ← collect_param_names spec
  if names.isEmpty then pure []
  else
    let c := names.countP (fun n => detect_style n == "camel")
    let s := names.countP (fun n => detect_style n == "snake")
    let o := names.countP (fun n => detect_style n == "other")
    pure ((if 0 < c ∧ 0 < s then [paramMixMsg c s] else []) ++
      (if 0 < o ∧ 0 < c + s then [paramOtherMsg o] else []))

-- ---- check_versioning_present (checks.py lines 302-338) ----

/-- Substring test, Python `needle in s` for strings. -/
def isSubstr (needle s : String) : Bool :=
  (List.range (s.data.length + 1)).any
    (fun i => needle.data.isPrefixOf (s.data.drop i))

/-- Python `x in v` for a decoded container `v`: key membership for
mappings, element equality for sequences, substring for strings; raises
`TypeError` otherwise. -/
def pythonInE (needle : String) (j : JVal) : Except String Bool :=
  match j with
  | .obj l => .ok (l.any (fun kv => kv.1 == needle))
  | .arr l => .ok (l.any (fun e =>
      match e with
      | .str s => s == needle
      | _ => false))
  | .str s => .ok (isSubstr needle s)
  | _ => .error "TypeError: argument is not iterable"

/-- checks.py line 313. -/
def noServersMsg : String :=
  "No servers defined; consider providing versioned base URL like `/api/v1`."

/-- checks.py line 324. -/
def noVersionServersMsg : String :=
  "No version segment found in servers[].url; prefer `/.../v1` style."

/-- checks.py line 331. -/
def noBasePathMsg : String :=
  "No basePath defined; consider versioned base path like `/api/v1`."

/-- checks.py line 334. -/
def noVersionBaseMsg : String :=
  "No version segment found in basePath; prefer `/.../v1` style."

/-- The per-entry test of checks.py lines 316-322: a mapping whose
`url` (default `""`) is a string containing a `/v<digits>` segment. -/
def goodServer (s : JVal) : Bool :=
  match s with
  | .obj l =>
    match (jget l "url").getD (.str "") with
    | .str u => hasVersionSeg u
    | _ => false
  | _ => false

/-- `check_versioning_present` (checks.py lines 302-338). -/
def check_versioning_present (spec : JVal) : Except String (List String) := do
  let hasOA ← pythonInE "openapi" spec
  if hasOA then do
    let serversRaw ← objGetE spec "servers"
    let servers := serversRaw.getD (JVal.arr [])
    if ¬ servers.truthy then pure [noServersMsg]
    else do
      let es ← iterElemsE servers
      pure (if es.any goodServer then [] else [noVersionServersMsg])
  else do
    let hasSw ← pythonInE "swagger" spec
    if hasSw then do
      let baseRaw ← objGetE spec "basePath"
      let base := baseRaw.getD (JVal.str "")
      match base with
      | .str b =>
        if b == "" then pure [noBasePathMsg]
        else pure (if hasVersionSeg b then [] else [noVersionBaseMsg])
      | _ => pure [noBasePathMsg]
    else pure []

-- ---- schema helpers and checks (checks.py lines 340-443) ----

/-- `_ALLOWED_TYPES` (checks.py line 341). -/
def ALLOWED_TYPES : List String :=
  ["string", "number", "integer", "boolean", "array", "object"]

/-- `_ALLOWED_FORMATS` (checks.py lines 342-347), as a total function
from the type name ( `dict.get` with empty-set default). -/
def allowedFormats (ty : String) : List String :=
  if ty = "string" then
    ["date", "date-time", "uuid", "email", "uri", "binary", "byte", "password"]
  else if ty = "integer" then ["int32", "int64"]
  else if ty = "number" then ["float", "double"]
  else []

/-- `_iter_object_schemas` (checks.py lines 349-392): component schemas
(mapping-valued) first, then request-body and response
`application/json` schemas per operation, each tagged with its location
label.  The `content` value is `isinstance`-guarded in this helper
(lines 374/387), so only a non-mapping `schemas` or `responses` value
raises. -/
def iter_object_schemasE (spec : JVal) :
    Except String (List (String × JVal)) := do
  let compsV ← getFieldOrEmptyE spec "components"
  let schemasV ← getFieldOrEmptyE compsV "schemas"
  let sl ← itemsE schemasV
  let compSchemas := sl.filterMap (fun nv =>
    if nv.2.isObj then some ("components.schemas." ++ nv.1, nv.2) else none)
  let pl ← specPathsE spec
  let opSchemas ← pl.foldlM (fun acc pi =>
    match pi.2 with
    | .obj il =>
      il.foldlM (fun acc2 mo =>
        if asciiLower mo.1 ∈ HTTP_METHODS ∧ mo.2.isObj then do
          let rbPart :=
            match mo.2.get? "requestBody" with
            | some (.obj rbl) =>
              (match getOrEmptyObj rbl "content" with
              | .obj cl =>
                (match jget cl "application/json" with
                | some (.obj ajl) =>
                  (match jget ajl "schema" with
                  | some sch =>
                    if sch.isObj then
                      [(asciiUpper mo.1 ++ " " ++ pi.1 ++ " requestBody", sch)]
                    else []
                  | none => [])
                | _ => [])
              | _ => [])
            | _ => []
          let rl ← itemsE (JVal.getOrEmpty mo.2 "responses")
          let respPart := rl.flatMap (fun cr =>
            match cr.2 with
            | .obj rl2 =>
              (match getOrEmptyObj rl2 "content" with
              | .obj cl =>
                (match jget cl "application/json" with
                | some (.obj ajl) =>
                  (match jget ajl "schema" with
                  | some sch =>
                    if sch.isObj then
                      [(asciiUpper mo.1 ++ " " ++ pi.1 ++ " response " ++ cr.1,
                        sch)]
                    else []
                  | none => [])
                | _ => [])
              | _ => [])
            | _ => [])
          pure (acc2 ++ rbPart ++ respPart)
        else pure acc2) acc
    | _ => pure acc) []
  pure (compSchemas ++ opSchemas)

/-- `set(schema.get("required", []) or [])` followed by the
string-filtering comprehension (checks.py lines 402, 405): the distinct
string members.  Unhashable sequence members raise at `set(...)`;
iterating a truthy number or boolean raises `TypeError`. -/
def reqSetE (rv : JVal) : Except String (List String) :=
  if ¬ rv.truthy then .ok []
  else match rv with
    | .arr el =>
      if el.any (fun e => e.isArr || e.isObj) then
        .error "TypeError: unhashable type"
      else .ok ((el.filterMap (fun e =>
        match e with
        | .str s => some s
        | _ => none)).dedup)
    | .str s => .ok ((s.data.map (fun c => String.singleton c)).dedup)
    | .obj l => .ok ((l.map (fun kv => kv.1)).dedup)
    | _ => .error "TypeError: object is not iterable"

/-- `_schema_props_and_required` (checks.py lines 394-406): for an
object-shaped schema, the mapping-valued properties (in order) and the
set of string required-names; otherwise empty. -/
def schema_props_and_requiredE (sch : JVal) :
    Except String (List (String × JVal) × List String) :=
  match sch with
  | .obj l =>
    if !(match jget l "type" with
          | some (.str s) => s == "object"
          | _ => false : Bool) && (jget l "properties").isNone
    then .ok ([], [])
    else do
      let req ← reqSetE ((jget l "required").getD JVal.null)
      let pitems ← itemsE (getOrEmptyObj l "properties")
      pure (pitems.filter (fun kv => kv.2.isObj), req)
  | _ => .ok ([], [])

/-- checks.py line 423. -/
def reqMissingMsg (w n : String) : String :=
  "[" ++ w ++ "] required lists '" ++ n ++
    "', but no such property in 'properties'"

/-- checks.py line 433. -/
def missingTypeMsg (w n : String) : String :=
  "[" ++ w ++ "] property '" ++ n ++ "' missing 'type'"

/-- checks.py line 436. -/
def unknownTypeMsg (w n : String) (ty : JVal) : String :=
  "[" ++ w ++ "] property '" ++ n ++ "' has unknown type '" ++
    pyScalarStr ty ++ "'"

/-- checks.py line 442. -/
def badFormatMsg (w n : String) (fmt ty : JVal) : String :=
  "[" ++ w ++ "] property '" ++ n ++ "' uses format '" ++ pyScalarStr fmt ++
    "' not typical for type '" ++ pyScalarStr ty ++ "'"

/-- Lexicographic (code-point) comparison of character lists: the order
Python `sorted` uses on strings. -/
def lexLe : List Char → List Char → Bool
  | [], _ => true
  | _ :: _, [] => false
  | a :: as, b :: bs =>
    if a < b then true else if b < a then false else lexLe as bs

/-- Strict lexicographic (code-point) comparison of character lists. -/
def lexLt : List Char → List Char → Bool
  | [], [] => false
  | [], _ :: _ => true
  | _ :: _, [] => false
  | a :: as, b :: bs =>
    if a < b then true else if b < a then false else lexLt as bs

/-- Python string `<=` (code-point lexicographic), as a relation. -/
def strLe (a b : String) : Prop := lexLe a.data b.data = true

/-- Python string `<` (code-point lexicographic), as a relation. -/
def strLt (a b : String) : Prop := lexLt a.data b.data = true

instance : DecidableRel strLe := fun a b =>
  instDecidableEqBool (lexLe a.data b.data) true

instance : DecidableRel strLt := fun a b =>
  instDecidableEqBool (lexLt a.data b.data) true

/-- checks.py lines 421-423: `for name in sorted(req)`, keeping the
names missing from `properties`.  Python `sorted` on distinct strings is
the ascending lexicographic (code-point) order `strLe`. -/
def reqIssueNames (props : List (String × JVal)) (req : List String) :
    List String :=
  (List.insertionSort strLe req).filter (fun n => (jget props n).isNone)

/-- The property loop of checks.py lines 426-442 for one schema. -/
def propIssuesE (w : String) (props : List (String × JVal)) :
    Except String (List String) :=
  props.foldlM (fun acc nv =>
    match nv.2 with
    | .obj ml =>
      if (jget ml "$ref").isSome ∨ (jget ml "oneOf").isSome ∨
          (jget ml "anyOf").isSome ∨ (jget ml "allOf").isSome then pure acc
      else
        let ty := (jget ml "type").getD JVal.null
        if ¬ ty.truthy then pure (acc ++ [missingTypeMsg w nv.1])
        else if ty.isArr || ty.isObj then .error "TypeError: unhashable type"
        else
          let unknown := match ty with
            | .str s => !(ALLOWED_TYPES.contains s)
            | _ => true
          let acc2 := acc ++ (if unknown then [unknownTypeMsg w nv.1 ty] else [])
          let fmt := (jget ml "format").getD JVal.null
          if ¬ fmt.truthy then pure acc2
          else
            let allowed := match ty with
              | .str s => allowedFormats s
              | _ => []
            if allowed.isEmpty then pure acc2
            else if fmt.isArr || fmt.isObj then
              .error "TypeError: unhashable type"
            else
              let bad := match fmt with
                | .str f => !(allowed.contains f)
                | _ => true
              pure (acc2 ++ (if bad then [badFormatMsg w nv.1 fmt ty] else []))
    | _ => pure acc) []

/-- `check_schema_types_and_required` (checks.py lines 408-443). -/
def check_schema_types_and_required (spec : JVal) :
    Except String (List String) := do
  let schs ← iter_object_schemasE spec
  schs.foldlM (fun acc ws => do
    let pr ← schema_props_and_requiredE ws.2
    let pMsgs ← propIssuesE ws.1 pr.1
    pure (acc ++ (reqIssueNames pr.1 pr.2).map (reqMissingMsg ws.1) ++ pMsgs))
    []

-- ---- check_examples_presence (checks.py lines 476-524) ----

/-- `bool(aj.get("example") or aj.get("examples"))` on a media-type
mapping. -/
def mediaHasExample (ajl : List (String × JVal)) : Bool :=
  ((jget ajl "example").getD JVal.null).truthy ||
    ((jget ajl "examples").getD JVal.null).truthy

/-- `isinstance(schema, Dict) and not (schema.get("example") or
schema.get("examples"))`. -/
def schemaLacksExample (schema : JVal) : Bool :=
  match schema with
  | .obj sl =>
    !(((jget sl "example").getD JVal.null).truthy ||
      ((jget sl "examples").getD JVal.null).truthy)
  | _ => false

/-- checks.py line 496. -/
def reqBodyNoExampleMsg (method path : String) : String :=
  "[" ++ asciiUpper method ++ " " ++ path ++
    "] requestBody (application/json) has no example"

/-- checks.py line 511. -/
def responseNoExampleMsg (method path code : String) : String :=
  "[" ++ asciiUpper method ++ " " ++ path ++ "] response " ++ code ++
    " (application/json) has no example"

/-- checks.py line 522. -/
def compSchemaExampleMsg (name : String) : String :=
  "[components.schemas." ++ name ++ "] consider adding example for larger schema"

/-- The component-schema loop of checks.py lines 513-522: a
mapping-valued schema whose mapping-valued `properties` holds at least 3
entries and which carries neither a truthy `example` nor truthy
`examples` is flagged. -/
def largeComponentFlagged (schl : List (String × JVal)) : Bool :=
  match getOrEmptyObj schl "properties" with
  | .obj pl =>
    decide (3 ≤ pl.length) &&
      !(((jget schl "example").getD JVal.null).truthy ||
        ((jget schl "examples").getD JVal.null).truthy)
  | _ => false

/-- `check_examples_presence` (checks.py lines 476-524). -/
def check_examples_presence (spec : JVal) : Except String (List String) := do
  let ops ← iter_operationsE spec
  let opMsgs ← ops.foldlM (fun acc o => do
    let rbMsgs ←
      match o.2.2.get? "requestBody" with
      | some (.obj rbl) => do
        let ajOpt ← objGetE (getOrEmptyObj rbl "content") "application/json"
        match ajOpt with
        | some (.obj ajl) =>
          pure (if ¬ mediaHasExample ajl ∧
              schemaLacksExample (getOrEmptyObj ajl "schema")
            then [reqBodyNoExampleMsg o.2.1 o.1] else [])
        | _ => pure []
      | _ => pure ([] : List String)
    let rl ← itemsE (JVal.getOrEmpty o.2.2 "responses")
    let respMsgs ← rl.foldlM (fun acc2 cr =>
      match cr.2 with
      | .obj rl2 =>
        if pyStartsWith "2" cr.1 then do
          let ajOpt ← objGetE (getOrEmptyObj rl2 "content") "application/json"
          match ajOpt with
          | some (.obj ajl) =>
            pure (acc2 ++ (if ¬ mediaHasExample ajl ∧
                schemaLacksExample (getOrEmptyObj ajl "schema")
              then [responseNoExampleMsg o.2.1 o.1 cr.1] else []))
          | _ => pure acc2
        else pure acc2
      | _ => pure acc2) []
    pure (acc ++ rbMsgs ++ respMsgs)) []
  let compsV ← getFieldOrEmptyE spec "components"
  let schemasV ← getFieldOrEmptyE compsV "schemas"
  let sl ← itemsE schemasV
  pure (opMsgs ++ sl.flatMap (fun ns =>
    match ns.2 with
    | .obj schl =>
      if largeComponentFlagged schl then [compSchemaExampleMsg ns.1] else []
    | _ => []))

-- ======================================================================
-- Theorems
-- ======================================================================

/-- C2 (counterexample): the classifier maps `"id"` to `camel`, not to
`snake` as claimed — the camel regex `^[a-z]+(?:[A-Z][a-z0-9]+)*$` has a
starred group, so a bare lowercase run already matches it, and the camel
test comes first in `detect_style`. -/
theorem detect_style_id_camel_not_snake :
    detect_style "id" = "camel" ∧ detect_style "id" ≠ "snake" :=
  ⟨rfl, by decide⟩

/-- C2 (amended): `detect_style "id" = "camel"` (the camel pattern's
repeated group is optional and the camel test precedes the snake test),
and every string is assigned exactly one of the three classes `camel`,
`snake`, `other` (the three result strings are pairwise distinct, and the
classifier always returns one of them). -/
theorem detect_style_id_and_total :
    detect_style "id" = "camel" ∧
    (∀ name : String, detect_style name = "camel" ∨
      detect_style name = "snake" ∨ detect_style name = "other") ∧
    ("camel" ≠ "snake" ∧ "camel" ≠ "other" ∧ "snake" ≠ "other") := by
  refine ⟨rfl, fun name => ?_, by decide, by decide, by decide⟩
  unfold detect_style
  split
  · exact Or.inl rfl
  · split
    · exact Or.inr (Or.inl rfl)
    · exact Or.inr (Or.inr rfl)

/-- The document `{"paths": {"/a": {"get": {"responses": [1]}}}}`:
well-formed decoded JSON whose `responses` value is a sequence. -/
def c1FailingDoc : JVal :=
  .obj [("paths", .obj [("/a", .obj [("get",
    .obj [("responses", .arr [.num 1])])])])]

/-- C1: refuted on the code.  On the well-formed document
`{"paths": {"/a": {"get": {"responses": [1]}}}}` the Python
`check_examples_presence` evaluates `responses.items()` on a list
(checks.py line 500 guards each response value but not `responses`
itself) and raises `AttributeError` instead of returning a list of
diagnostics; the embedded run reaches exactly that raise point. -/
theorem check_examples_presence_raises_on_list_responses :
    check_examples_presence c1FailingDoc =
      Except.error "AttributeError: object has no attribute 'items'" := rfl

/-- C9: for two documents whose `paths` mappings have identical key
sequences, `check_verbs_in_path` produces identical output: the check
reads nothing but the keys of `paths`. -/
theorem check_verbs_in_path_depends_only_on_path_keys
    (s1 s2 : JVal) (l1 l2 : List (String × JVal))
    (h1 : specPathsE s1 = .ok l1) (h2 : specPathsE s2 = .ok l2)
    (hk : l1.map Prod.fst = l2.map Prod.fst) :
    check_verbs_in_path s1 = check_verbs_in_path s2 := by
  have key : ∀ (l : List (String × JVal)),
      l.filterMap (fun pi =>
        if verbTriggered pi.1 then some (verbMsg pi.1) else none) =
      (l.map Prod.fst).filterMap (fun p =>
        if verbTriggered p then some (verbMsg p) else none) := by
    intro l
    rw [List.filterMap_map]
    rfl
  simp only [check_verbs_in_path, h1, h2, Except.bind, bind, key, hk]

/-- C9 witness: two concrete documents with the same `paths` keys but
different path-item contents (one not even a mapping, one empty, one
with an operation) get identical verb-in-path output. -/
theorem check_verbs_in_path_witness :
    check_verbs_in_path (JVal.obj [("paths", JVal.obj
      [("/createUser", JVal.num 5), ("/users", JVal.obj [])])]) =
    check_verbs_in_path (JVal.obj [("paths", JVal.obj
      [("/createUser", JVal.obj []),
       ("/users", JVal.obj [("get", JVal.obj [])])])]) :=
  check_verbs_in_path_depends_only_on_path_keys _ _ _ _ rfl rfl rfl

/-- C7: case analysis of `check_versioning_present` on a decoded mapping
document: with the `openapi` key present, an absent-or-falsy `servers`
yields exactly the no-servers diagnostic; a non-empty `servers` sequence
yields no diagnostic exactly when some entry passes the version test
(`goodServer`), and otherwise exactly the differently-worded
no-version diagnostic; with neither `openapi` nor `swagger` present the
check is silent. -/
theorem check_versioning_present_cases (l : List (String × JVal)) :
    (("openapi" ∈ l.map Prod.fst) →
      (¬ ((jget l "servers").getD JVal.null).truthy →
        check_versioning_present (JVal.obj l) = .ok [noServersMsg]) ∧
      (∀ es, (jget l "servers").getD JVal.null = JVal.arr es → es ≠ [] →
        check_versioning_present (JVal.obj l) =
          .ok (if es.any goodServer then [] else [noVersionServersMsg]))) ∧
    (("openapi" ∉ l.map Prod.fst ∧ "swagger" ∉ l.map Prod.fst) →
      check_versioning_present (JVal.obj l) = .ok []) ∧
    noServersMsg ≠ noVersionServersMsg := by
  have hmem : ∀ k : String, (l.any (fun kv => kv.1 == k)) = true ↔
      k ∈ l.map Prod.fst := by
    intro k
    rw [List.any_eq_true]
    constructor
    · rintro ⟨kv, hkv, he⟩
      exact List.mem_map.mpr ⟨kv, hkv, beq_iff_eq.mp he⟩
    · intro hk
      rcases List.mem_map.mp hk with ⟨kv, hkv, he⟩
      exact ⟨kv, hkv, beq_iff_eq.mpr he⟩
  refine ⟨fun hin => ⟨fun hfalsy => ?_, fun es hes hne => ?_⟩,
    fun hnot => ?_, by decide⟩
  · have ha : (l.any (fun kv => kv.1 == "openapi")) = true := (hmem _).mpr hin
    have hft : ((jget l "servers").getD (JVal.arr [])).truthy = false := by
      cases h : jget l "servers" with
      | none => rfl
      | some v =>
        rw [h] at hfalsy
        simpa using hfalsy
    simp [check_versioning_present, pythonInE, Except.bind, bind, ha,
      objGetE, hft]
    rfl
  · have ha : (l.any (fun kv => kv.1 == "openapi")) = true := (hmem _).mpr hin
    have hsv : jget l "servers" = some (JVal.arr es) := by
      cases h : jget l "servers" with
      | none =>
        rw [h] at hes
        exact absurd hes (by simp)
      | some v =>
        rw [h] at hes
        simp only [Option.getD_some] at hes
        rw [hes]
    have htr : (JVal.arr es).truthy = true := by
      simp [JVal.truthy, List.isEmpty_iff, hne]
    simp [check_versioning_present, pythonInE, Except.bind, bind, ha,
      objGetE, hsv, htr, iterElemsE]
    rfl
  · have ha : (l.any (fun kv => kv.1 == "openapi")) = false := by
      cases hh : l.any (fun kv => kv.1 == "openapi") with
      | false => rfl
      | true => exact absurd ((hmem _).mp hh) hnot.1
    have hb : (l.any (fun kv => kv.1 == "swagger")) = false := by
      cases hh : l.any (fun kv => kv.1 == "swagger") with
      | false => rfl
      | true => exact absurd ((hmem _).mp hh) hnot.2
    simp [check_versioning_present, pythonInE, Except.bind, bind, ha, hb]
    rfl

/-- C7 witness: the three concrete shapes from the spec — a versioned
server URL gives no diagnostic, an unversioned one gives exactly the
no-version diagnostic, absent servers give exactly the no-servers
diagnostic, and a document with neither discriminator key is silent. -/
theorem check_versioning_present_witness :
    check_versioning_present (JVal.obj [("openapi", JVal.str "3.0.0"),
      ("servers", JVal.arr [JVal.obj [("url",
        JVal.str "https://api.example.com/v2")]])]) = .ok [] ∧
    check_versioning_present (JVal.obj [("openapi", JVal.str "3.0.0"),
      ("servers", JVal.arr [JVal.obj [("url",
        JVal.str "https://api.example.com")]])]) =
      .ok [noVersionServersMsg] ∧
    check_versioning_present (JVal.obj [("openapi", JVal.str "3.0.0")]) =
      .ok [noServersMsg] ∧
    check_versioning_present (JVal.obj [("info", JVal.obj [])]) = .ok [] := by
  refine ⟨?_, ?_, ?_, ?_⟩
  · exact ((check_versioning_present_cases [("openapi", JVal.str "3.0.0"),
      ("servers", JVal.arr [JVal.obj [("url",
        JVal.str "https://api.example.com/v2")]])]).1 (by decide)).2
      [JVal.obj [("url", JVal.str "https://api.example.com/v2")]]
      rfl (List.cons_ne_nil _ _)
  · exact ((check_versioning_present_cases [("openapi", JVal.str "3.0.0"),
      ("servers", JVal.arr [JVal.obj [("url",
        JVal.str "https://api.example.com")]])]).1 (by decide)).2
      [JVal.obj [("url", JVal.str "https://api.example.com")]]
      rfl (List.cons_ne_nil _ _)
  · exact ((check_versioning_present_cases
      [("openapi", JVal.str "3.0.0")]).1 (by decide)).1 (by decide)
  · exact (check_versioning_present_cases
      [("info", JVal.obj [])]).2.1 (by decide)

-- ---- C4 ----

/-- The `example` entry of a component schema, when present. -/
def exEntry : Option JVal → List (String × JVal)
  | some e => [("example", e)]
  | none => []

/-- A document whose component registry holds one schema `S` with the
given properties and optional `example` value. -/
def docCompSchema (ps : List (String × JVal)) (ex : Option JVal) : JVal :=
  .obj [("components", .obj [("schemas", .obj [("S",
    .obj (("properties", .obj ps) :: exEntry ex))])])]

/-- C4 (counterexample): a component schema with exactly three
properties (fewer than five) and no example is flagged by
`check_examples_presence` — checks.py line 520 compares against 3, not
5, so "component schemas with fewer than 5 properties are never flagged"
is false at this document. -/
theorem check_examples_three_prop_schema_flagged :
    check_examples_presence (docCompSchema
      [("a", .obj []), ("b", .obj []), ("c", .obj [])] none) =
      Except.ok [compSchemaExampleMsg "S"] := rfl

/-- C4 (amended): the component-schema example threshold is 3: in the
one-schema document family, the 'consider adding example' diagnostic is
emitted exactly when the schema has at least 3 properties and its
`example` field is absent or falsy (no `examples` field present). -/
theorem check_examples_component_threshold
    (ps : List (String × JVal)) (ex : Option JVal)
    (hnodup : (ps.map Prod.fst).Nodup) :
    check_examples_presence (docCompSchema ps ex) =
      .ok (if 3 ≤ ps.length ∧ ¬ (ex.getD JVal.null).truthy
        then [compSchemaExampleMsg "S"] else []) := by
  have hex : jget (("properties", JVal.obj ps) :: exEntry ex) "example"
      = ex := by
    cases ex <;> simp [jget, exEntry, List.find?]
  have hexs : jget (("properties", JVal.obj ps) :: exEntry ex) "examples"
      = none := by
    cases ex <;> simp [jget, exEntry, List.find?]
  have hprops : jget (("properties", JVal.obj ps) :: exEntry ex) "properties"
      = some (JVal.obj ps) := by
    simp [jget, List.find?]
  have hflag : largeComponentFlagged (("properties", JVal.obj ps) :: exEntry ex)
      = (decide (3 ≤ ps.length) && !(ex.getD JVal.null).truthy) := by
    unfold largeComponentFlagged
    rw [getOrEmptyObj]
    simp only [hprops, hex, hexs, Option.getD_some]
    cases ps with
    | nil => simp [JVal.truthy]
    | cons p ps' =>
      simp [JVal.truthy]
  have main : check_examples_presence (docCompSchema ps ex) =
      .ok (if largeComponentFlagged (("properties", JVal.obj ps) :: exEntry ex)
        then [compSchemaExampleMsg "S"] else []) := by
    simp [check_examples_presence, docCompSchema, iter_operationsE,
      specPathsE, jget, getFieldOrEmptyE, getOrEmptyObj, itemsE,
      JVal.truthy, Except.bind, bind, pure, Except.pure, List.find?,
      List.foldlM, List.flatMap]
  rw [main, hflag]
  by_cases h : 3 ≤ ps.length ∧ ¬ (ex.getD JVal.null).truthy
  · rw [if_pos h]
    have : (decide (3 ≤ ps.length) && !(ex.getD JVal.null).truthy) = true := by
      simp [h.1, h.2]
    rw [this, if_pos rfl]
  · rw [if_neg h]
    have : (decide (3 ≤ ps.length) && !(ex.getD JVal.null).truthy) = false := by
      by_cases h1 : 3 ≤ ps.length
      · by_cases h2 : (ex.getD JVal.null).truthy = true
        · simp [h2]
        · exact absurd ⟨h1, h2⟩ h
      · simp [h1]
    rw [this]
    simp

/-- C4 witness for the amended theorem: a schema with four properties
and no example is flagged; one with two properties is not; one with
three properties and an example is not. -/
theorem check_examples_component_threshold_witness :
    check_examples_presence (docCompSchema
      [("a", .obj []), ("b", .obj []), ("c", .obj []), ("d", .obj [])]
      none) = .ok [compSchemaExampleMsg "S"] ∧
    check_examples_presence (docCompSchema
      [("a", .obj []), ("b", .obj [])] none) = .ok [] ∧
    check_examples_presence (docCompSchema
      [("a", .obj []), ("b", .obj []), ("c", .obj [])]
      (some (JVal.str "ex"))) = .ok [] := by
  refine ⟨?_, ?_, ?_⟩
  · rw [check_examples_component_threshold _ _ (by decide)]
    rfl
  · rw [check_examples_component_threshold _ _ (by decide)]
    rfl
  · rw [check_examples_component_threshold _ _ (by decide)]
    rfl

-- ---- C3 / C6 ----

theorem data_asString (s : String) : s.data.asString = s := rfl

/-- Scanning a collected group: while every character is neither `\x7d`
nor `/`, the scan keeps collecting, and the closing `\x7d` emits the
(nonempty) group. -/
theorem findParamsAux_collect (l : List Char)
    (hl : ∀ c ∈ l, c ≠ '}' ∧ c ≠ '/') :
    ∀ (acc rest : List Char), acc.reverse ++ l ≠ [] →
      findParamsAux (some acc) (l ++ '}' :: rest) =
        (acc.reverse ++ l).asString :: findParamsAux none rest := by
  induction l with
  | nil =>
    intro acc rest hne
    have hacc : acc.isEmpty = false := by
      cases acc with
      | nil => simp at hne
      | cons a as => rfl
    simp [findParamsAux, hacc]
  | cons c cs ih =>
    intro acc rest hne
    have hc := hl c (List.mem_cons_self _ _)
    have step : findParamsAux (some acc) ((c :: cs) ++ '}' :: rest) =
        findParamsAux (some (c :: acc)) (cs ++ '}' :: rest) := by
      simp [findParamsAux, hc.1, hc.2]
    rw [step, ih (fun x hx => hl x (List.mem_cons_of_mem _ hx)) (c :: acc)
      rest (by simp)]
    congr 2
    simp

/-- `PARAM_PATTERN.findall` on the template `/users/\x7bname\x7d`: exactly
the placeholder, for any nonempty name free of `\x7d` and `/`. -/
theorem findParams_user_template (pname : String) (h0 : pname ≠ "")
    (hc : ∀ c ∈ pname.data, c ≠ '}' ∧ c ≠ '/') :
    findParams ("/users/\x7b" ++ pname ++ "\x7d") = [pname] := by
  unfold findParams
  have hdata : ("/users/\x7b" ++ pname ++ "\x7d").data =
      ['/', 'u', 's', 'e', 'r', 's', '/', '\x7b'] ++
        (pname.data ++ '}' :: []) := by
    have h1 : ("/users/\x7b" ++ pname ++ "\x7d").data =
        "/users/\x7b".data ++ pname.data ++ "\x7d".data := by
      simp
    rw [h1]
    simp
  rw [hdata]
  have hscan : findParamsAux none
      (['/', 'u', 's', 'e', 'r', 's', '/', '\x7b'] ++
        (pname.data ++ '}' :: [])) =
      findParamsAux (some []) (pname.data ++ '}' :: []) := by
    simp [findParamsAux]
  rw [hscan, findParamsAux_collect pname.data hc [] []
    (by simpa using fun h => h0 (by cases pname with | mk d => simp_all))]
  simp [findParamsAux, data_asString]

/-- The path template `/users/\x7bname\x7d`. -/
def pathTemplate (pname : String) : String := "/users/\x7b" ++ pname ++ "\x7d"

/-- One path `/users/\x7bname\x7d` with one GET operation declaring one
parameter named `name` with the given `in` value (and nothing else). -/
def docWrongIn (pname inval : String) : JVal :=
  .obj [("paths", .obj [(pathTemplate pname, .obj [("get",
    .obj [("parameters", .arr [.obj [("name", .str pname),
      ("in", .str inval)]])])])])]

/-- The optional `required` entry of a declared parameter. -/
def reqEntry : Option JVal → List (String × JVal)
  | some v => [("required", v)]
  | none => []

/-- One path `/users/\x7bname\x7d` with one GET operation declaring one
parameter named `name` with `in: path` and the given `required` value
(absent when `none`). -/
def docPathParam (pname : String) (rv : Option JVal) : JVal :=
  .obj [("paths", .obj [(pathTemplate pname, .obj [("get",
    .obj [("parameters", .arr [.obj ([("name", .str pname),
      ("in", .str "path")] ++ reqEntry rv)])])])])]

/-- C3 (amended): a placeholder parameter declared with an `in` value
other than `path` is not collected into the visible parameter dictionary
(checks.py lines 89/100 filter on `in == "path"` while collecting), so
the check reports the 'missing from parameters' diagnostic for that
operation — the 'should have in: path' branch (line 117) is unreachable
and the wrong-`in` declaration behaves exactly like no declaration. -/
theorem check_path_params_wrong_in (pname inval : String) (h0 : pname ≠ "")
    (hc : ∀ c ∈ pname.data, c ≠ '}' ∧ c ≠ '/') (hin : inval ≠ "path") :
    check_path_params_defined (docWrongIn pname inval) =
      .ok [missingParamMsg "get" (pathTemplate pname) pname] := by
  have hfind : findParams (pathTemplate pname) = [pname] :=
    findParams_user_template pname h0 hc
  have hbeq : (inval == "path") = false := by
    simp [hin]
  have hlow : asciiLower "get" = "get" := rfl
  have hhm : "get" ∈ HTTP_METHODS := by decide
  simp [check_path_params_defined, docWrongIn, specPathsE,
    iter_operationsE, jget, JVal.truthy, Except.bind, bind, pure,
    Except.pure, List.foldlM, List.flatMap, hfind, paramListE, iterElemsE,
    collectPathParams, getInIsPath, JVal.get?, hbeq, dictUpdate,
    placeholderIssues, orphanIssues, List.find?, hlow, hhm, JVal.isObj,
    List.dedup_cons_of_not_mem, List.dedup_nil]

/-- C3 (counterexample): with `{id}` in the template and a parameter
named `id` declared with `in: query`, the check emits the
'missing from parameters' diagnostic and not the distinct
'should have in: path' diagnostic the claim requires. -/
theorem check_path_params_wrong_in_counterexample :
    check_path_params_defined (docWrongIn "id" "query") =
      .ok [missingParamMsg "get" (pathTemplate "id") "id"] ∧
    wrongInMsg "get" (pathTemplate "id") "id" ∉
      [missingParamMsg "get" (pathTemplate "id") "id"] :=
  ⟨rfl, by decide⟩

/-- C3 witness for the amended theorem. -/
theorem check_path_params_wrong_in_witness :
    check_path_params_defined (docWrongIn "postId" "query") =
      .ok [missingParamMsg "get" (pathTemplate "postId") "postId"] :=
  check_path_params_wrong_in "postId" "query" (by decide) (by decide)
    (by decide)

/-- C6: in the one-operation family declaring the placeholder parameter
with `in: path` and an arbitrary (possibly absent) `required` value, the
check emits exactly one 'must be required: true' diagnostic unless
`required` is the boolean `true`, in which case it emits nothing — in
particular the 'missing from parameters' diagnostic never accompanies
it. -/
theorem check_path_params_required_cases (pname : String) (rv : Option JVal)
    (h0 : pname ≠ "") (hc : ∀ c ∈ pname.data, c ≠ '}' ∧ c ≠ '/') :
    check_path_params_defined (docPathParam pname rv) =
      .ok (match rv with
        | some (JVal.bool true) => []
        | _ => [mustRequiredMsg "get" (pathTemplate pname) pname]) := by
  have hfind : findParams (pathTemplate pname) = [pname] :=
    findParams_user_template pname h0 hc
  have hlow : asciiLower "get" = "get" := rfl
  have hhm : "get" ∈ HTTP_METHODS := by decide
  cases rv with
  | none =>
    simp [check_path_params_defined, docPathParam, specPathsE,
      iter_operationsE, jget, JVal.truthy, Except.bind, bind, pure,
      Except.pure, List.foldlM, List.flatMap, hfind, paramListE,
      iterElemsE, collectPathParams, getInIsPath, getRequiredIsTrue,
      JVal.get?, dictUpdate, dictInsert, placeholderIssues, orphanIssues,
      List.find?, hlow, hhm, JVal.isObj, reqEntry,
      List.dedup_cons_of_not_mem, List.dedup_nil]
  | some v =>
    cases v with
    | bool b =>
      cases b <;>
        simp [check_path_params_defined, docPathParam, specPathsE,
          iter_operationsE, jget, JVal.truthy, Except.bind, bind, pure,
          Except.pure, List.foldlM, List.flatMap, hfind, paramListE,
          iterElemsE, collectPathParams, getInIsPath, getRequiredIsTrue,
          JVal.get?, dictUpdate, dictInsert, placeholderIssues,
          orphanIssues, List.find?, hlow, hhm, JVal.isObj, reqEntry,
          List.dedup_cons_of_not_mem, List.dedup_nil]
    | null =>
      simp [check_path_params_defined, docPathParam, specPathsE,
        iter_operationsE, jget, JVal.truthy, Except.bind, bind, pure,
        Except.pure, List.foldlM, List.flatMap, hfind, paramListE,
        iterElemsE, collectPathParams, getInIsPath, getRequiredIsTrue,
        JVal.get?, dictUpdate, dictInsert, placeholderIssues, orphanIssues,
        List.find?, hlow, hhm, JVal.isObj, reqEntry,
        List.dedup_cons_of_not_mem, List.dedup_nil]
    | num n =>
      simp [check_path_params_defined, docPathParam, specPathsE,
        iter_operationsE, jget, JVal.truthy, Except.bind, bind, pure,
        Except.pure, List.foldlM, List.flatMap, hfind, paramListE,
        iterElemsE, collectPathParams, getInIsPath, getRequiredIsTrue,
        JVal.get?, dictUpdate, dictInsert, placeholderIssues, orphanIssues,
        List.find?, hlow, hhm, JVal.isObj, reqEntry,
        List.dedup_cons_of_not_mem, List.dedup_nil]
    | str s =>
      simp [check_path_params_defined, docPathParam, specPathsE,
        iter_operationsE, jget, JVal.truthy, Except.bind, bind, pure,
        Except.pure, List.foldlM, List.flatMap, hfind, paramListE,
        iterElemsE, collectPathParams, getInIsPath, getRequiredIsTrue,
        JVal.get?, dictUpdate, dictInsert, placeholderIssues, orphanIssues,
        List.find?, hlow, hhm, JVal.isObj, reqEntry,
        List.dedup_cons_of_not_mem, List.dedup_nil]
    | arr l =>
      simp [check_path_params_defined, docPathParam, specPathsE,
        iter_operationsE, jget, JVal.truthy, Except.bind, bind, pure,
        Except.pure, List.foldlM, List.flatMap, hfind, paramListE,
        iterElemsE, collectPathParams, getInIsPath, getRequiredIsTrue,
        JVal.get?, dictUpdate, dictInsert, placeholderIssues, orphanIssues,
        List.find?, hlow, hhm, JVal.isObj, reqEntry,
        List.dedup_cons_of_not_mem, List.dedup_nil]
    | obj l =>
      simp [check_path_params_defined, docPathParam, specPathsE,
        iter_operationsE, jget, JVal.truthy, Except.bind, bind, pure,
        Except.pure, List.foldlM, List.flatMap, hfind, paramListE,
        iterElemsE, collectPathParams, getInIsPath, getRequiredIsTrue,
        JVal.get?, dictUpdate, dictInsert, placeholderIssues, orphanIssues,
        List.find?, hlow, hhm, JVal.isObj, reqEntry,
        List.dedup_cons_of_not_mem, List.dedup_nil]

/-- C6 witness: `required: true` yields zero diagnostics;
`required: false` and absent `required` yield exactly the one
'must be required: true' diagnostic. -/
theorem check_path_params_required_witness :
    check_path_params_defined (docPathParam "id" (some (JVal.bool true))) =
      .ok [] ∧
    check_path_params_defined (docPathParam "id" (some (JVal.bool false))) =
      .ok [mustRequiredMsg "get" (pathTemplate "id") "id"] ∧
    check_path_params_defined (docPathParam "id" none) =
      .ok [mustRequiredMsg "get" (pathTemplate "id") "id"] :=
  ⟨check_path_params_required_cases "id" (some (JVal.bool true)) (by decide)
      (by decide),
    check_path_params_required_cases "id" (some (JVal.bool false)) (by decide)
      (by decide),
    check_path_params_required_cases "id" none (by decide) (by decide)⟩

-- ---- C8 ----

/-- C8: whenever the name collectors return (no raise), each
naming-consistency check returns a list of at most two diagnostics: the
mixed-style diagnostic exactly when some collected name classifies as
`camel` and some as `snake`, and the non-standard-style diagnostic
exactly when some name classifies as `other` and some name classifies as
`camel` or `snake`. -/
theorem style_checks_at_most_two (spec : JVal) :
    (∀ names, collect_json_property_names spec = .ok names →
      check_json_keys_style spec = .ok
        ((if (∃ n ∈ names, detect_style n = "camel") ∧
              (∃ n ∈ names, detect_style n = "snake")
          then [jsonMixMsg (names.countP (fun n => detect_style n == "camel"))
              (names.countP (fun n => detect_style n == "snake"))]
          else []) ++
         (if (∃ n ∈ names, detect_style n = "other") ∧
              ((∃ n ∈ names, detect_style n = "camel") ∨
               (∃ n ∈ names, detect_style n = "snake"))
          then [jsonOtherMsg (names.countP (fun n => detect_style n == "other"))]
          else [])) ∧
      ∀ out, check_json_keys_style spec = .ok out → out.length ≤ 2) ∧
    (∀ names, collect_param_names spec = .ok names →
      check_param_names_style spec = .ok
        ((if (∃ n ∈ names, detect_style n = "camel") ∧
              (∃ n ∈ names, detect_style n = "snake")
          then [paramMixMsg (names.countP (fun n => detect_style n == "camel"))
              (names.countP (fun n => detect_style n == "snake"))]
          else []) ++
         (if (∃ n ∈ names, detect_style n = "other") ∧
              ((∃ n ∈ names, detect_style n = "camel") ∨
               (∃ n ∈ names, detect_style n = "snake"))
          then [paramOtherMsg (names.countP (fun n => detect_style n == "other"))]
          else [])) ∧
      ∀ out, check_param_names_style spec = .ok out → out.length ≤ 2) := by
  have hpos : ∀ (names : List String) (sty : String),
      (0 < names.countP (fun n => detect_style n == sty)) ↔
        (∃ n ∈ names, detect_style n = sty) := by
    intro names sty
    rw [List.countP_pos_iff]
    simp
  have hsum : ∀ (names : List String),
      (0 < names.countP (fun n => detect_style n == "camel") +
        names.countP (fun n => detect_style n == "snake")) ↔
        ((∃ n ∈ names, detect_style n = "camel") ∨
         (∃ n ∈ names, detect_style n = "snake")) := by
    intro names
    rw [← hpos names "camel", ← hpos names "snake"]
    omega
  constructor
  · intro names h
    have hval : check_json_keys_style spec = .ok
        (if names.isEmpty then [] else
          ((if 0 < names.countP (fun n => detect_style n == "camel") ∧
                0 < names.countP (fun n => detect_style n == "snake")
            then [jsonMixMsg (names.countP (fun n => detect_style n == "camel"))
                (names.countP (fun n => detect_style n == "snake"))]
            else []) ++
           (if 0 < names.countP (fun n => detect_style n == "other") ∧
                0 < names.countP (fun n => detect_style n == "camel") +
                  names.countP (fun n => detect_style n == "snake")
            then [jsonOtherMsg
                (names.countP (fun n => detect_style n == "other"))]
            else []))) := by
      simp only [check_json_keys_style, h, Except.bind, bind]
      split <;> rfl
    constructor
    · rw [hval]
      by_cases hne : names.isEmpty
      · have : names = [] := List.isEmpty_iff.mp hne
        subst this
        simp
      · rw [if_neg hne]
        congr 1
        congr 1
        · exact if_congr (and_congr (hpos names "camel") (hpos names "snake"))
            rfl rfl
        · exact if_congr (and_congr (hpos names "other") (hsum names)) rfl rfl
    · intro out hout
      rw [hval] at hout
      injection hout with hout
      subst hout
      split
      · simp
      · split <;> split <;> simp
  · intro names h
    have hval : check_param_names_style spec = .ok
        (if names.isEmpty then [] else
          ((if 0 < names.countP (fun n => detect_style n == "camel") ∧
                0 < names.countP (fun n => detect_style n == "snake")
            then [paramMixMsg (names.countP (fun n => detect_style n == "camel"))
                (names.countP (fun n => detect_style n == "snake"))]
            else []) ++
           (if 0 < names.countP (fun n => detect_style n == "other") ∧
                0 < names.countP (fun n => detect_style n == "camel") +
                  names.countP (fun n => detect_style n == "snake")
            then [paramOtherMsg
                (names.countP (fun n => detect_style n == "other"))]
            else []))) := by
      simp only [check_param_names_style, h, Except.bind, bind]
      split <;> rfl
    constructor
    · rw [hval]
      by_cases hne : names.isEmpty
      · have : names = [] := List.isEmpty_iff.mp hne
        subst this
        simp
      · rw [if_neg hne]
        congr 1
        congr 1
        · exact if_congr (and_congr (hpos names "camel") (hpos names "snake"))
            rfl rfl
        · exact if_congr (and_congr (hpos names "other") (hsum names)) rfl rfl
    · intro out hout
      rw [hval] at hout
      injection hout with hout
      subst hout
      split
      · simp
      · split <;> split <;> simp

/-- A document exercising both collectors: three component property
names and three parameter names, one of each style. -/
def styleWitnessDoc : JVal :=
  .obj [("components", .obj [("schemas", .obj [("S", .obj [("properties",
      .obj [("userId", .obj []), ("user_id", .obj []),
        ("user-id", .obj [])])])])]),
    ("paths", .obj [("/users", .obj [("parameters", .arr
      [.obj [("name", .str "pageSize"), ("in", .str "query")],
       .obj [("name", .str "page_size"), ("in", .str "query")],
       .obj [("name", .str "page-size"), ("in", .str "query")]]),
      ("get", .obj [])])])]

/-- C8 witness: on `styleWitnessDoc` both checks return exactly the two
diagnostics with the counted styles. -/
theorem style_checks_at_most_two_witness :
    check_json_keys_style styleWitnessDoc =
      .ok [jsonMixMsg 1 1, jsonOtherMsg 1] ∧
    check_param_names_style styleWitnessDoc =
      .ok [paramMixMsg 1 1, paramOtherMsg 1] := by
  constructor
  · have h := ((style_checks_at_most_two styleWitnessDoc).1
      ["userId", "user_id", "user-id"] rfl).1
    rw [h]
    norm_num [detect_style]
    rfl
  · have h := ((style_checks_at_most_two styleWitnessDoc).2
      ["pageSize", "page_size", "page-size"] rfl).1
    rw [h]
    norm_num [detect_style]
    rfl

-- ---- C10 ----

theorem lexLe_total : ∀ a b : List Char, lexLe a b = true ∨ lexLe b a = true
  | [], _ => Or.inl rfl
  | _ :: _, [] => Or.inr rfl
  | a :: as, b :: bs => by
    by_cases h1 : a < b
    · exact Or.inl (by simp [lexLe, h1])
    · by_cases h2 : b < a
      · exact Or.inr (by simp [lexLe, h1, h2])
      · cases lexLe_total as bs with
        | inl h => exact Or.inl (by simp [lexLe, h1, h2, h])
        | inr h => exact Or.inr (by simp [lexLe, h1, h2, h])

theorem lexLe_trans : ∀ a b c : List Char,
    lexLe a b = true → lexLe b c = true → lexLe a c = true
  | [], _, _, _, _ => rfl
  | a :: as, [], c, hab, _ => by simp [lexLe] at hab
  | a :: as, b :: bs, [], _, hbc => by simp [lexLe] at hbc
  | a :: as, b :: bs, c :: cs, hab, hbc => by
    by_cases h1 : a < b
    · by_cases h2 : b < c
      · simp [lexLe, lt_trans h1 h2]
      · by_cases h3 : c < b
        · simp [lexLe, h2, h3] at hbc
        · have : b = c := le_antisymm (not_lt.mp h3) (not_lt.mp h2)
          subst this
          simp [lexLe, h1]
    · by_cases h4 : b < a
      · simp [lexLe, h1, h4] at hab
      · have hba : a = b := le_antisymm (not_lt.mp h4) (not_lt.mp h1)
        subst hba
        have hab' : lexLe as bs = true := by
          simpa [lexLe, h1] using hab
        by_cases h2 : a < c
        · simp [lexLe, h2]
        · by_cases h3 : c < a
          · exfalso
            simp [lexLe, h2, h3] at hbc
          · have hbc' : lexLe bs cs = true := by
              simpa [lexLe, h2, h3] using hbc
            simp [lexLe, h2, h3, lexLe_trans as bs cs hab' hbc']

theorem lexLe_antisymm : ∀ a b : List Char,
    lexLe a b = true → lexLe b a = true → a = b
  | [], [], _, _ => rfl
  | [], _ :: _, _, hba => by simp [lexLe] at hba
  | _ :: _, [], hab, _ => by simp [lexLe] at hab
  | a :: as, b :: bs, hab, hba => by
    by_cases h1 : a < b
    · simp [lexLe, lt_asymm h1, h1] at hba
    · by_cases h2 : b < a
      · simp [lexLe, h1, h2] at hab
      · have hba' : a = b := le_antisymm (not_lt.mp h2) (not_lt.mp h1)
        subst hba'
        have hab2 : lexLe as bs = true := by
          simpa [lexLe, h1] using hab
        have hba2 : lexLe bs as = true := by
          simpa [lexLe, h1] using hba
        rw [lexLe_antisymm as bs hab2 hba2]

theorem lexLt_iff : ∀ a b : List Char,
    lexLt a b = true ↔ (lexLe a b = true ∧ a ≠ b)
  | [], [] => by simp [lexLt, lexLe]
  | [], c :: cs => by simp [lexLt, lexLe]
  | a :: as, [] => by simp [lexLt, lexLe]
  | a :: as, b :: bs => by
    by_cases h1 : a < b
    · simp only [lexLt, lexLe, h1, if_true]
      simp only [true_iff, true_and, ne_eq, List.cons.injEq, not_and]
      intro he
      exact absurd he (ne_of_lt h1)
    · by_cases h2 : b < a
      · simp [lexLt, lexLe, h1, h2]
      · have hba : a = b := le_antisymm (not_lt.mp h2) (not_lt.mp h1)
        subst hba
        have e1 : lexLt (a :: as) (a :: bs) = lexLt as bs := by
          simp [lexLt, h1]
        have e2 : lexLe (a :: as) (a :: bs) = lexLe as bs := by
          simp [lexLe, h1]
        rw [e1, e2, lexLt_iff as bs]
        simp

instance : IsTotal String strLe :=
  ⟨fun a b => lexLe_total a.data b.data⟩

instance : IsTrans String strLe :=
  ⟨fun a b c => lexLe_trans a.data b.data c.data⟩

theorem string_data_inj {a b : String} (h : a.data = b.data) : a = b := by
  cases a
  cases b
  exact congrArg String.mk h

instance : IsAntisymm String strLe :=
  ⟨fun a b h1 h2 => string_data_inj (lexLe_antisymm a.data b.data h1 h2)⟩

theorem strLt_of_strLe_ne {a b : String} (h1 : strLe a b) (h2 : a ≠ b) :
    strLt a b :=
  (lexLt_iff a.data b.data).mpr ⟨h1, fun he => h2 (string_data_inj he)⟩

/-- `reqSetE` always returns a duplicate-free list: Python `set`
membership is duplicate-free. -/
theorem reqSetE_nodup (rv : JVal) (r : List String)
    (h : reqSetE rv = .ok r) : r.Nodup := by
  unfold reqSetE at h
  split at h
  · injection h with h
    subst h
    exact List.nodup_nil
  · cases rv with
    | arr el =>
      simp only at h
      split at h
      · cases h
      · injection h with h
        subst h
        exact List.nodup_dedup _
    | str s =>
      injection h with h
      subst h
      exact List.nodup_dedup _
    | obj l =>
      injection h with h
      subst h
      exact List.nodup_dedup _
    | null => cases h
    | bool b => cases h
    | num n => cases h

/-- C10: the 'required lists X, but no such property' names produced for
one schema are strictly ascending in code-point lexicographic order,
whatever the order of the `required` array: `_schema_props_and_required`
returns a duplicate-free set of names, `reqIssueNames` sorts it before
filtering, and two `required` sets with the same members produce the
same diagnostics. -/
theorem required_issues_sorted :
    (∀ (props : List (String × JVal)) (req : List String), req.Nodup →
      List.Chain' strLt (reqIssueNames props req)) ∧
    (∀ sch props req, schema_props_and_requiredE sch = .ok (props, req) →
      req.Nodup) ∧
    (∀ (props : List (String × JVal)) (r1 r2 : List String), r1.Nodup →
      r2.Nodup → (∀ x, x ∈ r1 ↔ x ∈ r2) →
      reqIssueNames props r1 = reqIssueNames props r2) := by
  refine ⟨fun props req hnd => ?_, fun sch props req h => ?_,
    fun props r1 r2 h1 h2 hm => ?_⟩
  · have hsorted : List.Sorted strLe (List.insertionSort strLe req) :=
      List.sorted_insertionSort strLe req
    have hnd2 : (List.insertionSort strLe req).Nodup :=
      ((List.perm_insertionSort strLe req).nodup_iff).mpr hnd
    have hpw : List.Pairwise strLt (List.insertionSort strLe req) :=
      (List.Pairwise.and hsorted hnd2).imp
        (fun h => strLt_of_strLe_ne h.1 h.2)
    exact (hpw.filter _).chain'
  · unfold schema_props_and_requiredE at h
    cases sch with
    | obj l =>
      simp only at h
      split at h
      · injection h with h
        have hr : req = [] := ((Prod.ext_iff.mp h).2).symm
        subst hr
        exact List.nodup_nil
      · cases hr : reqSetE ((jget l "required").getD JVal.null) with
        | error e =>
          rw [hr] at h
          cases h
        | ok r0 =>
          rw [hr] at h
          cases hp : itemsE (getOrEmptyObj l "properties") with
          | error e =>
            rw [hp] at h
            cases h
          | ok pitems =>
            rw [hp] at h
            injection h with h
            have hreq : req = r0 := ((Prod.ext_iff.mp h).2).symm
            subst hreq
            exact reqSetE_nodup _ _ hr
    | null =>
      injection h with h
      have hr : req = [] := ((Prod.ext_iff.mp h).2).symm
      subst hr
      exact List.nodup_nil
    | bool b =>
      injection h with h
      have hr : req = [] := ((Prod.ext_iff.mp h).2).symm
      subst hr
      exact List.nodup_nil
    | num n =>
      injection h with h
      have hr : req = [] := ((Prod.ext_iff.mp h).2).symm
      subst hr
      exact List.nodup_nil
    | str s =>
      injection h with h
      have hr : req = [] := ((Prod.ext_iff.mp h).2).symm
      subst hr
      exact List.nodup_nil
    | arr el =>
      injection h with h
      have hr : req = [] := ((Prod.ext_iff.mp h).2).symm
      subst hr
      exact List.nodup_nil
  · unfold reqIssueNames
    congr 1
    have hperm : List.Perm r1 r2 := (List.perm_ext_iff_of_nodup h1 h2).mpr hm
    exact List.eq_of_perm_of_sorted
      (((List.perm_insertionSort strLe r1).trans hperm).trans
        (List.perm_insertionSort strLe r2).symm)
      (List.sorted_insertionSort strLe r1)
      (List.sorted_insertionSort strLe r2)

/-- C10 witness: a `required` array given in reverse order produces
strictly ascending missing-property diagnostics, `_schema_props_and_required`
on a concrete schema returns a duplicate-free set, and permuted
`required` sets give identical diagnostics. -/
theorem required_issues_sorted_witness :
    List.Chain' strLt (reqIssueNames [("a", JVal.obj [])] ["zz", "bb", "aa"]) ∧
    (["aa", "bb"] : List String).Nodup ∧
    reqIssueNames [("p", JVal.obj [])] ["b", "a"] =
      reqIssueNames [("p", JVal.obj [])] ["a", "b"] := by
  refine ⟨required_issues_sorted.1 _ _ (by decide), ?_, ?_⟩
  · exact required_issues_sorted.2.1
      (JVal.obj [("type", JVal.str "object"),
        ("properties", JVal.obj [("p", JVal.obj [])]),
        ("required", JVal.arr [JVal.str "aa", JVal.str "bb"])])
      [("p", JVal.obj [])] ["aa", "bb"] rfl
  · refine required_issues_sorted.2.2 _ _ _ (by decide) (by decide) ?_
    intro x
    constructor
    · intro hx
      rcases List.mem_cons.mp hx with h | h
      · subst h
        simp
      · rcases List.mem_cons.mp h with h | h
        · subst h
          simp
        · cases h
    · intro hx
      rcases List.mem_cons.mp hx with h | h
      · subst h
        simp
      · rcases List.mem_cons.mp h with h | h
        · subst h
          simp
        · cases h

-- ---- C5 ----

/-- The `seen` dictionary after processing a list of operations
(ignoring the raising branch, which the lemmas exclude by hypothesis). -/
def seenAfter : List (String × String × JVal) →
    List (JVal × String × String) → List (JVal × String × String)
  | [], seen => seen
  | x :: rest, seen =>
    let oid := oidOf x
    if ¬ oid.truthy then seenAfter rest seen
    else if unhashableJ oid then seen
    else match seenLookup seen oid with
      | some _ => seenAfter rest seen
      | none => seenAfter rest (seen ++ [(oid, x.1, x.2.1)])

theorem scalarEq_sound {a b : JVal} (h : scalarEq a b = true) : a = b := by
  cases a <;> cases b <;> simp_all [scalarEq]

theorem seenLookup_append_some {s : List (JVal × String × String)}
    {k : JVal} {v : String × String}
    (h : seenLookup s k = some v) (t : List (JVal × String × String)) :
    seenLookup (s ++ t) k = some v := by
  unfold seenLookup at h ⊢
  rw [List.find?_append]
  cases hf : s.find? (fun e => scalarEq e.1 k) with
  | none => rw [hf] at h; cases h
  | some e => rw [hf] at h; simp [hf, h]

theorem seenLookup_append_none {s : List (JVal × String × String)}
    {k : JVal} (h : seenLookup s k = none)
    (t : List (JVal × String × String)) :
    seenLookup (s ++ t) k = seenLookup t k := by
  unfold seenLookup at h ⊢
  rw [List.find?_append]
  cases hf : s.find? (fun e => scalarEq e.1 k) with
  | none => simp
  | some e => rw [hf] at h; cases h

theorem seenLookup_single_ne {k oid : JVal} {p m : String}
    (hne : oid ≠ k) : seenLookup [(oid, p, m)] k = none := by
  unfold seenLookup
  have : scalarEq oid k = false := by
    cases hs : scalarEq oid k with
    | false => rfl
    | true => exact absurd (scalarEq_sound hs) hne
  simp [List.find?, this]

/-- Fresh keys: operations whose id differs from `k` never change the
`seen` entry for `k`. -/
theorem seenAfter_fresh : ∀ (xs : List (String × String × JVal))
    (seen : List (JVal × String × String)) (k : JVal),
    (∀ x ∈ xs, oidOf x ≠ k) →
    seenLookup (seenAfter xs seen) k = seenLookup seen k := by
  intro xs
  induction xs with
  | nil => intro seen k _; rfl
  | cons x rest ih =>
    intro seen k hne
    have hx := hne x (List.mem_cons_self _ _)
    have hrest := fun y hy => hne y (List.mem_cons_of_mem _ hy)
    by_cases ht : (oidOf x).truthy
    · by_cases hu : unhashableJ (oidOf x)
      · simp [seenAfter, ht, hu]
      · cases hl : seenLookup seen (oidOf x) with
        | some pr => simp [seenAfter, ht, hu, hl, ih _ _ hrest]
        | none =>
          have hsa : seenAfter (x :: rest) seen =
              seenAfter rest (seen ++ [(oidOf x, x.1, x.2.1)]) := by
            simp [seenAfter, ht, hu, hl]
          rw [hsa, ih _ _ hrest]
          cases hsk : seenLookup seen k with
          | some v => exact seenLookup_append_some hsk _
          | none =>
            rw [seenLookup_append_none hsk, seenLookup_single_ne hx]
    · simp [seenAfter, ht, ih _ _ hrest]

/-- Persistence: an existing `seen` entry survives any further
processing (insertions only append fresh keys). -/
theorem seenAfter_preserves : ∀ (xs : List (String × String × JVal))
    (seen : List (JVal × String × String)) (k : JVal) (v : String × String),
    seenLookup seen k = some v →
    seenLookup (seenAfter xs seen) k = some v := by
  intro xs
  induction xs with
  | nil => intro seen k v h; exact h
  | cons x rest ih =>
    intro seen k v h
    by_cases ht : (oidOf x).truthy
    · by_cases hu : unhashableJ (oidOf x)
      · simp [seenAfter, ht, hu, h]
      · cases hl : seenLookup seen (oidOf x) with
        | some pr => simp [seenAfter, ht, hu, hl, ih _ _ _ h]
        | none =>
          have hsa : seenAfter (x :: rest) seen =
              seenAfter rest (seen ++ [(oidOf x, x.1, x.2.1)]) := by
            simp [seenAfter, ht, hu, hl]
          rw [hsa]
          exact ih _ _ _ (seenLookup_append_some h _)
    · simp [seenAfter, ht, ih _ _ _ h]

/-- One scan step for an operation with a fresh truthy hashable id:
no event, the id is recorded. -/
theorem opIdEvents_cons_skip (x : String × String × JVal)
    (rest : List (String × String × JVal))
    (seen : List (JVal × String × String))
    (ht : (oidOf x).truthy = true) (hu : unhashableJ (oidOf x) = false)
    (hl : seenLookup seen (oidOf x) = none) :
    opIdEvents (x :: rest) seen =
      opIdEvents rest (seen ++ [(oidOf x, x.1, x.2.1)]) := by
  simp [opIdEvents, ht, hu, hl]

/-- One scan step for an operation whose truthy hashable id is already
recorded: a duplicate event naming the recorded occurrence. -/
theorem opIdEvents_cons_dup (x : String × String × JVal)
    (rest : List (String × String × JVal))
    (seen : List (JVal × String × String)) (pr : String × String)
    (evs : List OpIdEvent)
    (ht : (oidOf x).truthy = true) (hu : unhashableJ (oidOf x) = false)
    (hl : seenLookup seen (oidOf x) = some pr)
    (he : opIdEvents rest seen = .ok evs) :
    opIdEvents (x :: rest) seen =
      .ok (OpIdEvent.dup (oidOf x) x.2.1 x.1 pr.2 pr.1 :: evs) := by
  simp [opIdEvents, ht, hu, hl, he, Except.bind, bind]
  rfl

/-- The scan succeeds on any operation list whose truthy ids are all
hashable. -/
theorem opIdEvents_ok : ∀ (ops : List (String × String × JVal))
    (seen : List (JVal × String × String)),
    (∀ x ∈ ops, unhashableJ (oidOf x) = false) →
    ∃ evs, opIdEvents ops seen = .ok evs := by
  intro ops
  induction ops with
  | nil => intro seen _; exact ⟨[], rfl⟩
  | cons x rest ih =>
    intro seen hh
    have hx := hh x (List.mem_cons_self _ _)
    have hrest := fun y hy => hh y (List.mem_cons_of_mem _ hy)
    by_cases ht : (oidOf x).truthy
    · cases hl : seenLookup seen (oidOf x) with
      | some pr =>
        obtain ⟨evs, he⟩ := ih seen hrest
        exact ⟨_, opIdEvents_cons_dup x rest seen pr evs ht hx hl he⟩
      | none =>
        obtain ⟨evs, he⟩ := ih (seen ++ [(oidOf x, x.1, x.2.1)]) hrest
        exact ⟨evs, (opIdEvents_cons_skip x rest seen ht hx hl).trans he⟩
    · obtain ⟨evs, he⟩ := ih seen hrest
      refine ⟨OpIdEvent.missing x.2.1 x.1 :: evs, ?_⟩
      simp [opIdEvents, ht, he, Except.bind, bind]
      rfl

/-- Concatenation of scans: processing `xs ++ ys` is processing `xs`,
then `ys` from the accumulated dictionary. -/
theorem opIdEvents_append_ok : ∀ (xs ys : List (String × String × JVal))
    (seen : List (JVal × String × String)) (e1 e2 : List OpIdEvent),
    opIdEvents xs seen = .ok e1 →
    opIdEvents ys (seenAfter xs seen) = .ok e2 →
    opIdEvents (xs ++ ys) seen = .ok (e1 ++ e2) := by
  intro xs
  induction xs with
  | nil =>
    intro ys seen e1 e2 h1 h2
    have : e1 = [] := by
      have : Except.ok ([] : List OpIdEvent) = Except.ok e1 := h1
      injection this with h
      exact h.symm
    subst this
    simpa using h2
  | cons x rest ih =>
    intro ys seen e1 e2 h1 h2
    by_cases ht : (oidOf x).truthy
    · by_cases hu : unhashableJ (oidOf x) = true
      · rw [show opIdEvents (x :: rest) seen =
          .error "TypeError: unhashable type" by
            simp [opIdEvents, ht, hu]] at h1
        cases h1
      · have hu' : unhashableJ (oidOf x) = false := by
          simpa using hu
        cases hl : seenLookup seen (oidOf x) with
        | some pr =>
          cases hrest : opIdEvents rest seen with
          | error e =>
            rw [show opIdEvents (x :: rest) seen = .error e by
              simp [opIdEvents, ht, hu', hl, hrest, Except.bind, bind]] at h1
            cases h1
          | ok evs =>
            rw [opIdEvents_cons_dup x rest seen pr evs ht hu' hl hrest] at h1
            injection h1 with h1
            subst h1
            have hsa : seenAfter (x :: rest) seen = seenAfter rest seen := by
              simp [seenAfter, ht, hu', hl]
            rw [hsa] at h2
            have := ih ys seen evs e2 hrest h2
            rw [show (x :: rest) ++ ys = x :: (rest ++ ys) by rfl,
              opIdEvents_cons_dup x (rest ++ ys) seen pr (evs ++ e2) ht hu'
                hl this]
            rfl
        | none =>
          rw [opIdEvents_cons_skip x rest seen ht hu' hl] at h1
          have hsa : seenAfter (x :: rest) seen =
              seenAfter rest (seen ++ [(oidOf x, x.1, x.2.1)]) := by
            simp [seenAfter, ht, hu', hl]
          rw [hsa] at h2
          rw [show (x :: rest) ++ ys = x :: (rest ++ ys) by rfl,
            opIdEvents_cons_skip x (rest ++ ys) seen ht hu' hl]
          exact ih ys _ e1 e2 h1 h2
    · cases hrest : opIdEvents rest seen with
      | error e =>
        rw [show opIdEvents (x :: rest) seen = .error e by
          simp [opIdEvents, ht, hrest, Except.bind, bind]] at h1
        cases h1
      | ok evs =>
        have hstep : opIdEvents (x :: rest) seen =
            .ok (OpIdEvent.missing x.2.1 x.1 :: evs) := by
          simp [opIdEvents, ht, hrest, Except.bind, bind]
          rfl
        rw [hstep] at h1
        injection h1 with h1
        subst h1
        have hsa : seenAfter (x :: rest) seen = seenAfter rest seen := by
          simp [seenAfter, ht]
        rw [hsa] at h2
        have := ih ys seen evs e2 hrest h2
        rw [show (x :: rest) ++ ys = x :: (rest ++ ys) by rfl]
        simp [opIdEvents, ht, this, Except.bind, bind]
        rfl

/-- Every duplicate event's id is the id of some processed operation. -/
theorem opIdEvents_dup_mem : ∀ (xs : List (String × String × JVal))
    (seen : List (JVal × String × String)) (evs : List OpIdEvent),
    opIdEvents xs seen = .ok evs →
    ∀ k (m p pm pp : String), OpIdEvent.dup k m p pm pp ∈ evs →
      ∃ x ∈ xs, oidOf x = k := by
  intro xs
  induction xs with
  | nil =>
    intro seen evs h k m p pm pp hmem
    have : evs = [] := by
      have : Except.ok ([] : List OpIdEvent) = Except.ok evs := h
      injection this with h2
      exact h2.symm
    subst this
    cases hmem
  | cons x rest ih =>
    intro seen evs h k m p pm pp hmem
    by_cases ht : (oidOf x).truthy
    · by_cases hu : unhashableJ (oidOf x) = true
      · rw [show opIdEvents (x :: rest) seen =
          .error "TypeError: unhashable type" by
            simp [opIdEvents, ht, hu]] at h
        cases h
      · have hu' : unhashableJ (oidOf x) = false := by simpa using hu
        cases hl : seenLookup seen (oidOf x) with
        | some pr =>
          cases hrest : opIdEvents rest seen with
          | error e =>
            rw [show opIdEvents (x :: rest) seen = .error e by
              simp [opIdEvents, ht, hu', hl, hrest, Except.bind, bind]] at h
            cases h
          | ok evs' =>
            rw [opIdEvents_cons_dup x rest seen pr evs' ht hu' hl hrest] at h
            injection h with h
            subst h
            rcases List.mem_cons.mp hmem with hh | hh
            · exact ⟨x, List.mem_cons_self _ _, by
                injection hh with h1 h2
                exact h1.symm⟩
            · obtain ⟨y, hy, hk⟩ := ih seen evs' hrest k m p pm pp hh
              exact ⟨y, List.mem_cons_of_mem _ hy, hk⟩
        | none =>
          rw [opIdEvents_cons_skip x rest seen ht hu' hl] at h
          obtain ⟨y, hy, hk⟩ := ih _ evs h k m p pm pp hmem
          exact ⟨y, List.mem_cons_of_mem _ hy, hk⟩
    · cases hrest : opIdEvents rest seen with
      | error e =>
        rw [show opIdEvents (x :: rest) seen = .error e by
          simp [opIdEvents, ht, hrest, Except.bind, bind]] at h
        cases h
      | ok evs' =>
        have hstep : opIdEvents (x :: rest) seen =
            .ok (OpIdEvent.missing x.2.1 x.1 :: evs') := by
          simp [opIdEvents, ht, hrest, Except.bind, bind]
          rfl
        rw [hstep] at h
        injection h with h
        subst h
        rcases List.mem_cons.mp hmem with hh | hh
        · cases hh
        · obtain ⟨y, hy, hk⟩ := ih seen evs' hrest k m p pm pp hh
          exact ⟨y, List.mem_cons_of_mem _ hy, hk⟩

/-- Once `k` is recorded with occurrence `pr`, every later duplicate
event for `k` names `pr`. -/
theorem opIdEvents_dup_prior : ∀ (xs : List (String × String × JVal))
    (seen : List (JVal × String × String)) (evs : List OpIdEvent)
    (k : JVal) (pr : String × String),
    opIdEvents xs seen = .ok evs → seenLookup seen k = some pr →
    ∀ (m p pm pp : String), OpIdEvent.dup k m p pm pp ∈ evs →
      pp = pr.1 ∧ pm = pr.2 := by
  intro xs
  induction xs with
  | nil =>
    intro seen evs k pr h hk m p pm pp hmem
    have : evs = [] := by
      have : Except.ok ([] : List OpIdEvent) = Except.ok evs := h
      injection this with h2
      exact h2.symm
    subst this
    cases hmem
  | cons x rest ih =>
    intro seen evs k pr h hk m p pm pp hmem
    by_cases ht : (oidOf x).truthy
    · by_cases hu : unhashableJ (oidOf x) = true
      · rw [show opIdEvents (x :: rest) seen =
          .error "TypeError: unhashable type" by
            simp [opIdEvents, ht, hu]] at h
        cases h
      · have hu' : unhashableJ (oidOf x) = false := by simpa using hu
        cases hl : seenLookup seen (oidOf x) with
        | some pr' =>
          cases hrest : opIdEvents rest seen with
          | error e =>
            rw [show opIdEvents (x :: rest) seen = .error e by
              simp [opIdEvents, ht, hu', hl, hrest, Except.bind, bind]] at h
            cases h
          | ok evs' =>
            rw [opIdEvents_cons_dup x rest seen pr' evs' ht hu' hl hrest] at h
            injection h with h
            subst h
            rcases List.mem_cons.mp hmem with hh | hh
            · injection hh with h1 h2 h3 h4 h5
              subst h1
              rw [hk] at hl
              injection hl with hl
              subst hl
              exact ⟨h5, h4⟩
            · exact ih seen evs' k pr hrest hk m p pm pp hh
        | none =>
          rw [opIdEvents_cons_skip x rest seen ht hu' hl] at h
          have hk2 : seenLookup (seen ++ [(oidOf x, x.1, x.2.1)]) k =
              some pr := seenLookup_append_some hk _
          exact ih _ evs k pr h hk2 m p pm pp hmem
    · cases hrest : opIdEvents rest seen with
      | error e =>
        rw [show opIdEvents (x :: rest) seen = .error e by
          simp [opIdEvents, ht, hrest, Except.bind, bind]] at h
        cases h
      | ok evs' =>
        have hstep : opIdEvents (x :: rest) seen =
            .ok (OpIdEvent.missing x.2.1 x.1 :: evs') := by
          simp [opIdEvents, ht, hrest, Except.bind, bind]
          rfl
        rw [hstep] at h
        injection h with h
        subst h
        rcases List.mem_cons.mp hmem with hh | hh
        · cases hh
        · exact ih seen evs' k pr hrest hk m p pm pp hh

/-- C5: order-stability of duplicate-operationId detection.  If
operation `A = (pA, mA)` precedes `B = (pB, mB)` in traversal order,
both carry the same non-empty string operationId, `A` is the first
occurrence of that id, and truthy ids are hashable (so the scan
completes), then the scan emits a duplicate event for `B` naming `A` as
the prior use — rendered into the output of
`check_unique_operation_ids` — and never the reverse event for `A`
naming `B`. -/
theorem check_unique_operation_ids_order
    (spec : JVal) (l₁ l₂ l₃ : List (String × String × JVal))
    (pA mA pB mB : String) (opA opB : JVal) (id : String)
    (hops : iter_operationsE spec =
      .ok (l₁ ++ ((pA, mA, opA) :: (l₂ ++ (pB, mB, opB) :: l₃))))
    (hA : (opA.get? "operationId").getD JVal.null = JVal.str id)
    (hB : (opB.get? "operationId").getD JVal.null = JVal.str id)
    (hid : id ≠ "")
    (hHash : ∀ x ∈ l₁ ++ ((pA, mA, opA) :: (l₂ ++ (pB, mB, opB) :: l₃)),
      unhashableJ (oidOf x) = false)
    (hFirst : ∀ x ∈ l₁, oidOf x ≠ JVal.str id)
    (hDiff : (pA, mA) ≠ (pB, mB)) :
    ∃ evs,
      opIdEvents (l₁ ++ ((pA, mA, opA) :: (l₂ ++ (pB, mB, opB) :: l₃))) [] =
        .ok evs ∧
      check_unique_operation_ids spec = .ok (evs.map renderOpIdEvent) ∧
      OpIdEvent.dup (JVal.str id) mB pB mA pA ∈ evs ∧
      OpIdEvent.dup (JVal.str id) mA pA mB pB ∉ evs ∧
      renderOpIdEvent (OpIdEvent.dup (JVal.str id) mB pB mA pA) ∈
        evs.map renderOpIdEvent := by
  have hH1 : ∀ x ∈ l₁, unhashableJ (oidOf x) = false :=
    fun x hx => hHash x (by simp [hx])
  have hH2 : ∀ x ∈ l₂, unhashableJ (oidOf x) = false :=
    fun x hx => hHash x (by simp [hx])
  have hH3 : ∀ x ∈ l₃, unhashableJ (oidOf x) = false :=
    fun x hx => hHash x (by simp [hx])
  have hoidA : oidOf (pA, mA, opA) = JVal.str id := hA
  have hoidB : oidOf (pB, mB, opB) = JVal.str id := hB
  have htA : (oidOf (pA, mA, opA)).truthy = true := by
    rw [hoidA]
    simp [JVal.truthy, hid]
  have htB : (oidOf (pB, mB, opB)).truthy = true := by
    rw [hoidB]
    simp [JVal.truthy, hid]
  have huA : unhashableJ (oidOf (pA, mA, opA)) = false := by
    rw [hoidA]
    rfl
  have huB : unhashableJ (oidOf (pB, mB, opB)) = false := by
    rw [hoidB]
    rfl
  obtain ⟨e1, he1⟩ := opIdEvents_ok l₁ [] hH1
  have hs₁ : seenLookup (seenAfter l₁ []) (JVal.str id) = none := by
    rw [seenAfter_fresh l₁ [] (JVal.str id) hFirst]
    rfl
  have hstepA : opIdEvents
      ((pA, mA, opA) :: (l₂ ++ (pB, mB, opB) :: l₃)) (seenAfter l₁ []) =
      opIdEvents (l₂ ++ (pB, mB, opB) :: l₃)
        (seenAfter l₁ [] ++ [(JVal.str id, pA, mA)]) := by
    have h := opIdEvents_cons_skip (pA, mA, opA)
      (l₂ ++ (pB, mB, opB) :: l₃) (seenAfter l₁ []) htA huA
      (by rw [hoidA]; exact hs₁)
    rw [hoidA] at h
    exact h
  have hlook₂ : seenLookup (seenAfter l₁ [] ++ [(JVal.str id, pA, mA)])
      (JVal.str id) = some (pA, mA) := by
    rw [seenLookup_append_none hs₁]
    simp [seenLookup, List.find?, scalarEq]
  obtain ⟨e2, he2⟩ :=
    opIdEvents_ok l₂ (seenAfter l₁ [] ++ [(JVal.str id, pA, mA)]) hH2
  have hlook₃ : seenLookup
      (seenAfter l₂ (seenAfter l₁ [] ++ [(JVal.str id, pA, mA)]))
      (JVal.str id) = some (pA, mA) :=
    seenAfter_preserves l₂ _ (JVal.str id) _ hlook₂
  obtain ⟨e3, he3⟩ :=
    opIdEvents_ok l₃
      (seenAfter l₂ (seenAfter l₁ [] ++ [(JVal.str id, pA, mA)])) hH3
  have hstepB : opIdEvents ((pB, mB, opB) :: l₃)
      (seenAfter l₂ (seenAfter l₁ [] ++ [(JVal.str id, pA, mA)])) =
      .ok (OpIdEvent.dup (JVal.str id) mB pB mA pA :: e3) := by
    have h := opIdEvents_cons_dup (pB, mB, opB) l₃
      (seenAfter l₂ (seenAfter l₁ [] ++ [(JVal.str id, pA, mA)]))
      (pA, mA) e3 htB huB (by rw [hoidB]; exact hlook₃) he3
    rw [hoidB] at h
    exact h
  have hmid : opIdEvents (l₂ ++ (pB, mB, opB) :: l₃)
      (seenAfter l₁ [] ++ [(JVal.str id, pA, mA)]) =
      .ok (e2 ++ OpIdEvent.dup (JVal.str id) mB pB mA pA :: e3) :=
    opIdEvents_append_ok l₂ _ _ e2 _ he2 hstepB
  have hall : opIdEvents
      (l₁ ++ ((pA, mA, opA) :: (l₂ ++ (pB, mB, opB) :: l₃))) [] =
      .ok (e1 ++ (e2 ++ OpIdEvent.dup (JVal.str id) mB pB mA pA :: e3)) := by
    exact opIdEvents_append_ok l₁
      ((pA, mA, opA) :: (l₂ ++ (pB, mB, opB) :: l₃)) [] e1
      (e2 ++ OpIdEvent.dup (JVal.str id) mB pB mA pA :: e3) he1
      (hstepA.trans hmid)
  have hin : OpIdEvent.dup (JVal.str id) mB pB mA pA ∈
      e1 ++ (e2 ++ OpIdEvent.dup (JVal.str id) mB pB mA pA :: e3) :=
    List.mem_append_right _ (List.mem_append_right _ (List.mem_cons_self _ _))
  refine ⟨_, hall, ?_, hin, ?_, List.mem_map_of_mem _ hin⟩
  · simp only [check_unique_operation_ids, hops, hall, Except.bind, bind]
    rfl
  · intro hmem
    rcases List.mem_append.mp hmem with h | h
    · obtain ⟨x, hx, hk⟩ :=
        opIdEvents_dup_mem l₁ [] e1 he1 (JVal.str id) mA pA mB pB h
      exact hFirst x hx hk
    · rcases List.mem_append.mp h with h | h
      · have hpr := opIdEvents_dup_prior l₂ _ e2 (JVal.str id) (pA, mA) he2
          hlook₂ mA pA mB pB h
        exact hDiff (by rw [hpr.1, hpr.2])
      · rcases List.mem_cons.mp h with h | h
        · injection h with a1 a2 a3 a4 a5
          exact hDiff (by rw [a2, a3])
        · have hpr := opIdEvents_dup_prior l₃ _ e3 (JVal.str id) (pA, mA) he3
            hlook₃ mA pA mB pB h
          exact hDiff (by rw [hpr.1, hpr.2])

/-- The two-operation document of the spec's order-stability test:
`GET /x` with id `foo` before `POST /y` with id `foo`. -/
def opIdWitnessDoc : JVal :=
  .obj [("paths", .obj [
    ("/x", .obj [("get", .obj [("operationId", .str "foo")])]),
    ("/y", .obj [("post", .obj [("operationId", .str "foo")])])])]

/-- C5 witness: on the concrete two-operation document the check reports
the duplicate at `POST /y` naming `GET /x`. -/
theorem check_unique_operation_ids_order_witness :
    check_unique_operation_ids opIdWitnessDoc =
      .ok ["Duplicate operationId 'foo' at POST /y (already used at GET /x)"]
    := by
  obtain ⟨evs, hevs, hcheck, hmem, hnot, hren⟩ :=
    check_unique_operation_ids_order opIdWitnessDoc [] [] []
      "/x" "get" "/y" "post"
      (JVal.obj [("operationId", JVal.str "foo")])
      (JVal.obj [("operationId", JVal.str "foo")])
      "foo" rfl rfl rfl (by decide) (by decide)
      (fun x hx => absurd hx (List.not_mem_nil x)) (by decide)
  have hconc : opIdEvents
      ([] ++ (("/x", "get", JVal.obj [("operationId", JVal.str "foo")]) ::
        ([] ++ ("/y", "post", JVal.obj [("operationId", JVal.str "foo")]) ::
        []))) [] =
      Except.ok [OpIdEvent.dup (JVal.str "foo") "post" "/y" "get" "/x"] := rfl
  rw [hconc] at hevs
  injection hevs with hevs
  rw [← hevs] at hcheck
  exact hcheck

end Auditor
